import Mathlib

/-!
# Floodgate: the resumable play-harvesting loop

Shallow embedding of `src/Floodgate.js`.

Modelling conventions.

* JavaScript numbers that the script computes with are doubles of integer
  value (results of `parseInt`, page counters, sums of quantities) or `NaN`;
  they are modelled by `JSNum`, where `JSNum.int n` stands for the double of
  value `n`.  The sum of line 164 is the IEEE 754 sum: exact up to `2^53` in
  magnitude, rounded to the nearest double (ties to even) beyond (`jsAdd`).
* An array cell is `Option JSNum`: `none` is a hole / `undefined`, which is
  also what reading past the end of the array gives.
* The script is modelled as run from the browser console (non-strict code),
  where the undeclared loop variable `i` of the `finally` callback is legal.
* The remote API, the clock and the outcome of each IndexedDB `put` are
  inputs of the run (`Env`).  A run produces the list of its observable
  events (page fetches and checkpoint writes) in order.
* The `while` loop is driven by a fuel argument; `Run.exited` records
  whether the loop condition became false within the fuel.
-/

namespace Floodgate

/-! ## JavaScript values -/

/-- A JavaScript number as the script meets it: `NaN` or an integer. -/
inductive JSNum where
  | nan
  | int (n : Int)
deriving DecidableEq, Repr

/-- An array cell: `none` is `undefined` (a hole, or an index past the end). -/
abbrev Cell := Option JSNum

/-- The global `isNaN`, on a cell value: true for `undefined` and `NaN`. -/
def isNaN : Cell → Bool
  | some (JSNum.int _) => false
  | _ => true

/-- The spacing of the doubles around `n`, searched upwards from the power of
two `u`: the least `u`, doubled as often as needed, with `n < 2^53 * u`. -/
def ulpFrom : Nat → Nat → Nat → Nat
  | 0, _, u => u
  | fuel + 1, n, u => if n < 9007199254740992 * u then u else ulpFrom fuel n (2 * u)

/-- The spacing of the doubles around `n`. -/
def ulpOf (n : Nat) : Nat := ulpFrom n n 1

/-- The double nearest to the integer `s`, ties to the even significand
(IEEE 754 round-to-nearest-even): `s` itself up to `2^53 = 9007199254740992`
in magnitude, a multiple of the spacing beyond. -/
def roundDouble (s : Int) : Int :=
  if s.natAbs ≤ 9007199254740992 then s
  else
    let u := ulpOf s.natAbs
    let q := s.natAbs / u
    let r := s.natAbs % u
    let m := if 2 * r < u then q else if u < 2 * r then q + 1 else if q % 2 = 0 then q else q + 1
    if 0 ≤ s then ((m * u : Nat) : Int) else -((m * u : Nat) : Int)

/-- The operator `+` on a cell value and a number, as on doubles: a sum with
0 is the other operand, any other sum of two integers is the exact sum
rounded to the nearest double, and a sum with `undefined` or `NaN` is `NaN`. -/
def jsAdd : Cell → JSNum → JSNum
  | some (JSNum.int a), JSNum.int b =>
    JSNum.int (if a = 0 then b else if b = 0 then a else roundDouble (a + b))
  | _, _ => JSNum.nan

/-- The operator `-` on numbers. -/
def jsSub : JSNum → Int → JSNum
  | JSNum.int a, b => JSNum.int (a - b)
  | JSNum.nan, _ => JSNum.nan

/-- The comparison `x > 0`. -/
def gtZero : JSNum → Bool
  | JSNum.int a => decide (0 < a)
  | JSNum.nan => false

/-- The comparison `x < 1`. -/
def ltOne : JSNum → Bool
  | JSNum.int a => decide (a < 1)
  | JSNum.nan => false

/-- The read `a[i]`. -/
def getIdx (a : List Cell) (i : Nat) : Cell := a.getD i none

/-- The assignment `a[i] = v`: past the end, the array grows and the cells in
between are holes. -/
def setIdx : List Cell → Nat → Cell → List Cell
  | [], 0, v => [v]
  | [], i + 1, v => none :: setIdx [] i v
  | _ :: t, 0, v => v :: t
  | c :: t, i + 1, v => c :: setIdx t i v

/-! ## The remote document -/

/-- A child element of a `play` element: its tag name and `children.length`. -/
structure Element where
  tagName : String
  childCount : Nat
deriving DecidableEq, Repr

/-- A `play` element.  `quantity` is `parseInt(play.attributes['quantity'].value, 10)`,
or `none` when the attribute is missing (reading `.value` then throws). -/
structure PlayElem where
  quantity : Option JSNum
  children : List Element
deriving DecidableEq, Repr

/-- The parsed response.  `total` is `parseInt` of the root's `total`
attribute, or `none` when the attribute is missing (reading `.value` then
throws); `plays` are the children of the root. -/
structure XmlDoc where
  total : Option JSNum
  plays : List PlayElem
deriving DecidableEq, Repr

/-! ## The harvested object -/

/-- The `time` field of `objGame`. -/
structure Time where
  start : Nat
  finish : Option Nat
deriving DecidableEq, Repr

/-- The object `objGame`, which is also the record kept in IndexedDB. -/
structure GameRecord where
  bggid : Nat
  name : String
  page : Nat
  time : Time
  playerCounts : List Cell
deriving DecidableEq, Repr

/-- The initial value of `objGame` (lines 20-28); `start` is `getDate()`. -/
def objGame0 (bggid : Nat) (title : String) (start : Nat) : GameRecord :=
  { bggid := bggid, name := title, page := 1,
    time := { start := start, finish := none }, playerCounts := [] }

/-- The `onsuccess` handler of `readFromIndexedDB` (lines 71-83): an
unfinished stored record overrides page, histogram and start time. -/
def readFromIndexedDB (record : Option GameRecord) (objGame : GameRecord) : GameRecord :=
  match record with
  | some r =>
    if r.time.finish.isNone then
      { objGame with page := r.page, playerCounts := r.playerCounts,
                     time := { objGame.time with start := r.time.start } }
    else objGame
  | none => objGame

/-! ## One page -/

/-- The inner `forEach` over `play.children` (lines 154-158). -/
def numPlayersOf (play : PlayElem) : Nat :=
  play.children.foldl (fun numPlayers element =>
    if element.tagName = "players" then element.childCount else numPlayers) 0

/-- Lines 160-164 for one play with player count `numPlayers` and quantity `qty`. -/
def tally (playerCounts : List Cell) (numPlayers : Nat) (qty : JSNum) : List Cell :=
  let playerCount := getIdx playerCounts numPlayers
  setIdx playerCounts numPlayers
    (some (if isNaN playerCount then qty else jsAdd playerCount qty))

/-- The `forEach` over the plays of a page (lines 152-165).  The boolean is
`true` when the loop ran to the end and `false` when a play without a
`quantity` attribute made it throw; the histogram is the one in place at
that moment. -/
def forEachPlay : List PlayElem → List Cell → List Cell × Bool
  | [], playerCounts => (playerCounts, true)
  | play :: rest, playerCounts =>
    match play.quantity with
    | none => (playerCounts, false)
    | some qty => forEachPlay rest (tally playerCounts (numPlayersOf play) qty)

/-- The `then` callback (lines 146-179).  The second component is the value
of `numPlays` when the callback returns, `none` when it throws. -/
def thenCallback (now : Nat) (xmlDoc : XmlDoc) (objGame : GameRecord) :
    GameRecord × Option JSNum :=
  match xmlDoc.total with
  | none => (objGame, none)
  | some total =>
    match forEachPlay xmlDoc.plays objGame.playerCounts with
    | (playerCounts, false) => ({ objGame with playerCounts := playerCounts }, none)
    | (playerCounts, true) =>
      let numPlays := jsSub total (100 * (objGame.page : Int))
      let g := { objGame with playerCounts := playerCounts, page := objGame.page + 1 }
      if ltOne numPlays then
        ({ g with page := g.page - 1, time := { g.time with finish := some now } },
          some numPlays)
      else (g, some numPlays)

/-- The loop of the `finally` callback (lines 190-193). -/
def gapFill (playerCounts : List Cell) : List Cell :=
  playerCounts.map (fun c => if isNaN c then some (JSNum.int 0) else c)

/-! ## The loop -/

/-- What a run depends on: `fetchData p` is the outcome of `fetchData` while
`objGame.page = p` (`none`: it throws), `getDate` is the value of `getDate()` in
the `then` callback, `writeOk p` tells whether the `put` issued after page
`p` was requested succeeds. -/
structure Env where
  fetchData : Nat → Option XmlDoc
  getDate : Nat
  writeOk : Nat → Bool

/-- An observable action of a run: `fetch page` is a call of `fetchData` for
that page, `write data ok` is the call `writeToIndexedDB(db, dsName, objGame)`
of line 194, with the record handed to `put` and whether the `put` succeeds. -/
inductive Event where
  | fetch (page : Nat)
  | write (data : GameRecord) (ok : Bool)
deriving DecidableEq, Repr

/-- One pass through the body of the `while` loop (lines 145-195): the new
`objGame` and the new `numPlays`. -/
def iteration (env : Env) (objGame : GameRecord) : GameRecord × JSNum :=
  let r : GameRecord × JSNum :=
    match env.fetchData objGame.page with
    | none => (objGame, JSNum.int (-1))
    | some xmlDoc =>
      match thenCallback env.getDate xmlDoc objGame with
      | (g, none) => (g, JSNum.int (-1))
      | (g, some numPlays) => (g, numPlays)
  ({ r.1 with playerCounts := gapFill r.1.playerCounts }, r.2)

/-- The outcome of a run: its events in order, the final `objGame`, and
whether the `while` loop was left (then `loopThroughPlays` returns normally;
the function has no other way to end). -/
structure Run where
  events : List Event
  objGame : GameRecord
  exited : Bool
deriving DecidableEq, Repr

/-- The `while (numPlays > 0)` loop (lines 144-196).  The `finally` callback
neither awaits nor returns the promise of `writeToIndexedDB`, so the outcome
of a `put` reaches neither `numPlays` nor `objGame`. -/
def whileLoop (env : Env) : Nat → JSNum → GameRecord → Run
  | 0, numPlays, objGame =>
    { events := [], objGame := objGame, exited := !(gtZero numPlays) }
  | fuel + 1, numPlays, objGame =>
    if gtZero numPlays then
      let r := iteration env objGame
      let rest := whileLoop env fuel r.2 r.1
      { rest with events :=
          Event.fetch objGame.page :: Event.write r.1 (env.writeOk objGame.page) :: rest.events }
    else { events := [], objGame := objGame, exited := true }

/-- The function `loopThroughPlays` (lines 138-201). -/
def loopThroughPlays (env : Env) (fuel : Nat) (objGame : GameRecord) : Run :=
  whileLoop env fuel (JSNum.int 1) objGame

/-- The top-level script (lines 204-210) for a given content of the store. -/
def script (env : Env) (fuel : Nat) (bggid : Nat) (title : String) (start : Nat)
    (record : Option GameRecord) : Run :=
  loopThroughPlays env fuel (readFromIndexedDB record (objGame0 bggid title start))

/-! ## Reading a run -/

/-- The pages requested, in order. -/
def fetchedPages : List Event → List Nat
  | [] => []
  | Event.fetch p :: es => p :: fetchedPages es
  | Event.write _ _ :: es => fetchedPages es

/-- The records handed to `put`, in order. -/
def writtenRecords : List Event → List GameRecord
  | [] => []
  | Event.fetch _ :: es => writtenRecords es
  | Event.write g _ :: es => g :: writtenRecords es

/-- The content of the store after the events: the last record whose `put`
succeeded, or the previous content. -/
def storeAfter : Option GameRecord → List Event → Option GameRecord
  | record, [] => record
  | record, Event.fetch _ :: es => storeAfter record es
  | record, Event.write g ok :: es => storeAfter (if ok then some g else record) es

/-! ## Auxiliary definitions for the statements -/

/-- The effect of the `finally` loop on one cell. -/
def fillCell (c : Cell) : Cell := if isNaN c then some (JSNum.int 0) else c

/-- The update of line 164 on the cell read at line 160. -/
def bump (playerCount : Cell) (qty : JSNum) : Cell :=
  some (if isNaN playerCount then qty else jsAdd playerCount qty)

/-- The number held by a cell, an unset cell counting as 0. -/
def cellVal : Cell → Int
  | some (JSNum.int n) => n
  | _ => 0

/-- The quantity of a play as an integer (0 when it is not one). -/
def qtyVal (play : PlayElem) : Int :=
  match play.quantity with
  | some (JSNum.int q) => q
  | _ => 0

/-- The sum of the quantities of the plays whose player count is `i`. -/
def qtySum : List PlayElem → Nat → Int
  | [], _ => 0
  | play :: rest, i => (if numPlayersOf play = i then qtyVal play else 0) + qtySum rest i

/-- The plays of a response that the `then` callback folds before it returns
or throws: none when the root has no `total`, otherwise those before the
first play without a `quantity`. -/
def foldedPlays (xmlDoc : XmlDoc) : List PlayElem :=
  match xmlDoc.total with
  | none => []
  | some _ => xmlDoc.plays.takeWhile (fun play => play.quantity.isSome)

/-- The plays of the pages `p`, `p + 1`, ..., `p + cnt - 1` of `docs`, in order. -/
def playsOfPages (docs : Nat → XmlDoc) : Nat → Nat → List PlayElem
  | _, 0 => []
  | p, cnt + 1 => (docs p).plays ++ playsOfPages docs (p + 1) cnt

/-- The state of `objGame` after a page that is folded and leaves plays to fetch. -/
def advance1 (docs : Nat → XmlDoc) (g : GameRecord) : GameRecord :=
  { g with page := g.page + 1,
           playerCounts := gapFill (forEachPlay (docs g.page).plays g.playerCounts).1 }

/-- The state of `objGame` after `cnt` such pages. -/
def advance (docs : Nat → XmlDoc) : Nat → GameRecord → GameRecord
  | 0, g => g
  | cnt + 1, g => advance docs cnt (advance1 docs g)

/-- The events of `cnt` such pages. -/
def contEvents (env : Env) (docs : Nat → XmlDoc) : Nat → GameRecord → List Event
  | 0, _ => []
  | cnt + 1, g =>
    Event.fetch g.page :: Event.write (advance1 docs g) (env.writeOk g.page) ::
      contEvents env docs cnt (advance1 docs g)

/-- Page `q` of the run is served as `docs q`, is folded whole and leaves plays to fetch. -/
def Continues (env : Env) (docs : Nat → XmlDoc) (q : Nat) : Prop :=
  env.fetchData q = some (docs q) ∧
  (∃ t : Int, (docs q).total = some (JSNum.int t) ∧ 0 < t - 100 * (q : Int)) ∧
  ∀ play ∈ (docs q).plays, play.quantity ≠ none

/-- The run `r` preceded by the events `es`. -/
def Run.preceded (es : List Event) (r : Run) : Run :=
  { r with events := es ++ r.events }

/-- The plays folded while page `q` is processed (none when the fetch fails). -/
def pageFolded (env : Env) (q : Nat) : List PlayElem :=
  match env.fetchData q with
  | none => []
  | some xmlDoc => foldedPlays xmlDoc

/-- The plays folded while the pages `p`, ..., `p + cnt - 1` are processed. -/
def foldedOfPages (env : Env) : Nat → Nat → List PlayElem
  | _, 0 => []
  | p, cnt + 1 => pageFolded env p ++ foldedOfPages env (p + 1) cnt

/-- A play of quantity `q` whose `players` element has `n` children. -/
def playOf (q : Int) (n : Nat) : PlayElem :=
  { quantity := some (JSNum.int q),
    children := [{ tagName := "comments", childCount := 0 }, { tagName := "players", childCount := n }] }

/-- A page reporting a total of 250 plays. -/
def doc250 : XmlDoc := { total := some (JSNum.int 250), plays := [playOf 3 2, playOf 1 4] }

/-- A remote that serves `doc250` for every page; every write succeeds. -/
def env250 : Env := { fetchData := fun _ => some doc250, getDate := 77, writeOk := fun _ => true }

/-- A page reporting a total of 1000 plays. -/
def doc1000 : XmlDoc := { total := some (JSNum.int 1000), plays := [playOf 3 2, playOf 1 0] }

/-- A remote whose fetch of page 4 fails. -/
def envFail4 : Env :=
  { fetchData := fun p => if p = 4 then none else some doc1000, getDate := 77, writeOk := fun _ => true }

/-- The page contributing `{2:3}`. -/
def pageA : List PlayElem := [playOf 3 2]

/-- The page contributing `{2:4, 0:1}`. -/
def pageB : List PlayElem := [playOf 4 2, { quantity := some (JSNum.int 1), children := [] }]

/-- An unfinished stored record with `page = 2` and histogram `{0:5}`. -/
def stored2 : GameRecord :=
  { bggid := 1, name := "game", page := 2, time := { start := 3, finish := none },
    playerCounts := [some (JSNum.int 5)] }

/-- A page whose plays have player counts 0 and 4 only. -/
def doc04 : XmlDoc :=
  { total := some (JSNum.int 150),
    plays := [{ quantity := some (JSNum.int 1), children := [] }, playOf 2 4] }

/-- A remote that serves `doc04` for every page. -/
def env04 : Env := { fetchData := fun _ => some doc04, getDate := 77, writeOk := fun _ => true }

/-- A page whose second play has no `quantity` attribute. -/
def docBroken : XmlDoc :=
  { total := some (JSNum.int 150),
    plays := [playOf 3 2, { quantity := none, children := [] }, playOf 1 0] }

/-- A remote that serves `docBroken` for every page. -/
def envBroken : Env := { fetchData := fun _ => some docBroken, getDate := 77, writeOk := fun _ => true }

/-- A finished stored record. -/
def storedDone : GameRecord :=
  { bggid := 1, name := "game", page := 3, time := { start := 3, finish := some 50 },
    playerCounts := [some (JSNum.int 5), some (JSNum.int 0), some (JSNum.int 9)] }

/-- A remote whose every fetch fails. -/
def envDown : Env := { fetchData := fun _ => none, getDate := 77, writeOk := fun _ => true }

/-- The remote of `env250`, with a failing `put` after page 1. -/
def envWriteFail : Env :=
  { fetchData := fun _ => some doc250, getDate := 77, writeOk := fun p => decide (p ≠ 1) }

/-- The pages of a run whose fetch succeeded, in order. -/
def okFetched (env : Env) (events : List Event) : List Nat :=
  (fetchedPages events).filter (fun p => (env.fetchData p).isSome)

/-- The remote of `env250`, with a failing fetch of page 2. -/
def envFail2 : Env :=
  { fetchData := fun p => if p = 2 then none else some doc250, getDate := 60, writeOk := fun _ => true }

/-- A page of two plays without players element, of quantities `2^53` and 1. -/
def bigPage : List PlayElem :=
  [{ quantity := some (JSNum.int 9007199254740992), children := [] },
   { quantity := some (JSNum.int 1), children := [] }]

/-! ## Lemmas -/

@[simp] theorem getIdx_nil (i : Nat) : getIdx [] i = none := by
  simp [getIdx]

@[simp] theorem getIdx_cons_zero (c : Cell) (t : List Cell) : getIdx (c :: t) 0 = c := by
  simp [getIdx]

@[simp] theorem getIdx_cons_succ (c : Cell) (t : List Cell) (i : Nat) :
    getIdx (c :: t) (i + 1) = getIdx t i := by
  simp [getIdx]

theorem getIdx_of_length_le : ∀ (a : List Cell) (i : Nat), a.length ≤ i → getIdx a i = none
  | [], _, _ => by simp
  | _ :: t, 0, h => by simp at h
  | _ :: t, i + 1, h => by
    simp only [getIdx_cons_succ]
    exact getIdx_of_length_le t i (by simpa using h)

theorem getIdx_setIdx_self : ∀ (a : List Cell) (i : Nat) (v : Cell), getIdx (setIdx a i v) i = v
  | [], 0, v => by simp [setIdx]
  | [], i + 1, v => by simp [setIdx, getIdx_setIdx_self [] i v]
  | _ :: t, 0, v => by simp [setIdx]
  | _ :: t, i + 1, v => by simp [setIdx, getIdx_setIdx_self t i v]

theorem getIdx_setIdx_of_ne : ∀ (a : List Cell) (i j : Nat) (v : Cell), j ≠ i →
    getIdx (setIdx a i v) j = getIdx a j
  | [], 0, 0, v, h => by simp at h
  | [], 0, j + 1, v, _ => by simp [setIdx]
  | [], i + 1, 0, v, _ => by simp [setIdx]
  | [], i + 1, j + 1, v, h => by
    simp [setIdx, getIdx_setIdx_of_ne [] i j v (by omega)]
  | _ :: t, 0, 0, v, h => by simp at h
  | _ :: t, 0, j + 1, v, _ => by simp [setIdx]
  | _ :: t, i + 1, 0, v, _ => by simp [setIdx]
  | _ :: t, i + 1, j + 1, v, h => by
    simp [setIdx, getIdx_setIdx_of_ne t i j v (by omega)]

theorem length_setIdx : ∀ (a : List Cell) (i : Nat) (v : Cell),
    (setIdx a i v).length = max a.length (i + 1)
  | [], 0, v => by simp [setIdx]
  | [], i + 1, v => by simp [setIdx, length_setIdx [] i v]
  | _ :: t, 0, v => by simp [setIdx]
  | _ :: t, i + 1, v => by
    simp only [setIdx, List.length_cons, length_setIdx t i v]
    omega

theorem tally_eq (a : List Cell) (n : Nat) (q : JSNum) :
    tally a n q = setIdx a n (bump (getIdx a n) q) := rfl

theorem gapFill_eq_map (a : List Cell) : gapFill a = a.map fillCell := rfl

@[simp] theorem gapFill_nil : gapFill [] = [] := rfl

@[simp] theorem gapFill_cons (c : Cell) (t : List Cell) :
    gapFill (c :: t) = fillCell c :: gapFill t := rfl

@[simp] theorem length_gapFill (a : List Cell) : (gapFill a).length = a.length := by
  simp [gapFill]

theorem fillCell_idem (c : Cell) : fillCell (fillCell c) = fillCell c := by
  rcases c with _ | _ | n <;> simp [fillCell, isNaN]

theorem gapFill_idem (a : List Cell) : gapFill (gapFill a) = gapFill a := by
  induction a with
  | nil => rfl
  | cons c t ih => simp [ih, fillCell_idem]

theorem bump_congr (a b : Cell) (q : JSNum) (h : fillCell a = fillCell b) :
    bump a q = bump b q := by
  rcases a with _ | _ | x <;> rcases b with _ | _ | y <;> rcases q with _ | z <;>
    simp_all [fillCell, isNaN, bump, jsAdd]

theorem fillCell_getIdx_congr : ∀ (a b : List Cell) (i : Nat), gapFill a = gapFill b →
    fillCell (getIdx a i) = fillCell (getIdx b i)
  | [], [], _, _ => rfl
  | [], _ :: _, _, h => by simp at h
  | _ :: _, [], _, h => by simp at h
  | c :: t, d :: u, 0, h => by
    simp only [gapFill_cons, List.cons.injEq] at h
    simpa using h.1
  | c :: t, d :: u, i + 1, h => by
    simp only [gapFill_cons, List.cons.injEq] at h
    simpa using fillCell_getIdx_congr t u i h.2

theorem gapFill_setIdx_congr : ∀ (a b : List Cell) (i : Nat) (v : Cell), gapFill a = gapFill b →
    gapFill (setIdx a i v) = gapFill (setIdx b i v)
  | [], [], _, _, _ => rfl
  | [], _ :: _, _, _, h => by simp at h
  | _ :: _, [], _, _, h => by simp at h
  | c :: t, d :: u, 0, v, h => by
    simp only [gapFill_cons, List.cons.injEq] at h
    simp [setIdx, h.2]
  | c :: t, d :: u, i + 1, v, h => by
    simp only [gapFill_cons, List.cons.injEq] at h
    simp [setIdx, h.1, gapFill_setIdx_congr t u i v h.2]

theorem gapFill_tally_congr (a b : List Cell) (n : Nat) (q : JSNum) (h : gapFill a = gapFill b) :
    gapFill (tally a n q) = gapFill (tally b n q) := by
  rw [tally_eq, tally_eq, bump_congr _ _ q (fillCell_getIdx_congr a b n h)]
  exact gapFill_setIdx_congr a b n _ h

theorem getIdx_tally_self (a : List Cell) (n : Nat) (q : JSNum) :
    getIdx (tally a n q) n = bump (getIdx a n) q := by
  rw [tally_eq, getIdx_setIdx_self]

theorem getIdx_tally_of_ne (a : List Cell) (n j : Nat) (q : JSNum) (h : j ≠ n) :
    getIdx (tally a n q) j = getIdx a j := by
  rw [tally_eq, getIdx_setIdx_of_ne _ _ _ _ h]

/-- The rounding at the first integers that are not doubles: ties go to the even significand. -/
theorem roundDouble_examples :
    roundDouble 9007199254740992 = 9007199254740992 ∧
    roundDouble 9007199254740993 = 9007199254740992 ∧
    roundDouble 9007199254740994 = 9007199254740994 ∧
    roundDouble 9007199254740995 = 9007199254740996 ∧
    roundDouble (-9007199254740995) = -9007199254740996 ∧
    roundDouble 18014398509481985 = 18014398509481984 ∧
    roundDouble 18014398509481986 = 18014398509481984 ∧
    roundDouble 18014398509481987 = 18014398509481988 := by
  decide

theorem cellVal_int (n : Int) : cellVal (some (JSNum.int n)) = n := rfl

theorem roundDouble_of_bounds (s : Int) (h1 : -9007199254740992 ≤ s)
    (h2 : s ≤ 9007199254740992) : roundDouble s = s := by
  have h : s.natAbs ≤ 9007199254740992 := by omega
  simp [roundDouble, h]

theorem bump_int (c : Cell) (q : Int) (h1 : -9007199254740992 ≤ cellVal c + q)
    (h2 : cellVal c + q ≤ 9007199254740992) :
    bump c (JSNum.int q) = some (JSNum.int (cellVal c + q)) := by
  rcases c with _ | _ | x
  · simp [bump, isNaN, cellVal]
  · simp [bump, isNaN, cellVal]
  · simp only [cellVal] at h1 h2
    simp only [bump, isNaN, jsAdd, cellVal, Bool.false_eq_true, if_false]
    by_cases hx : x = 0
    · simp [hx]
    · by_cases hq : q = 0
      · simp [hx, hq]
      · simp [hx, hq, roundDouble_of_bounds _ h1 h2]

theorem forEachPlay_done (plays : List PlayElem) :
    ∀ h : List Cell, (∀ play ∈ plays, play.quantity ≠ none) → (forEachPlay plays h).2 = true := by
  induction plays with
  | nil => intro h _; rfl
  | cons play rest ih =>
    intro h hq
    have hp := hq play (List.mem_cons_self _ _)
    cases hqty : play.quantity with
    | none => exact absurd hqty hp
    | some q =>
      simp only [forEachPlay, hqty]
      exact ih _ (fun p hp => hq p (List.mem_cons_of_mem _ hp))

theorem forEachPlay_append (a b : List PlayElem) :
    ∀ h : List Cell, (forEachPlay a h).2 = true →
      forEachPlay (a ++ b) h = forEachPlay b (forEachPlay a h).1 := by
  induction a with
  | nil => intro h _; rfl
  | cons play rest ih =>
    intro h hd
    cases hqty : play.quantity with
    | none => simp [forEachPlay, hqty] at hd
    | some q =>
      simp only [forEachPlay, hqty, List.cons_append] at hd ⊢
      exact ih _ hd

theorem gapFill_forEachPlay_congr (plays : List PlayElem) :
    ∀ a b : List Cell, gapFill a = gapFill b →
      gapFill (forEachPlay plays a).1 = gapFill (forEachPlay plays b).1 ∧
      (forEachPlay plays a).2 = (forEachPlay plays b).2 := by
  induction plays with
  | nil => intro a b h; exact ⟨h, rfl⟩
  | cons play rest ih =>
    intro a b h
    cases hqty : play.quantity with
    | none => simp only [forEachPlay, hqty]; exact ⟨h, trivial⟩
    | some q =>
      simp only [forEachPlay, hqty]
      exact ih _ _ (gapFill_tally_congr a b _ q h)

theorem forEachPlay_gapFill (plays : List PlayElem) (h : List Cell) :
    gapFill (forEachPlay plays (gapFill h)).1 = gapFill (forEachPlay plays h).1 :=
  (gapFill_forEachPlay_congr plays (gapFill h) h (gapFill_idem h)).1

theorem forEachPlay_takeWhile (plays : List PlayElem) :
    ∀ h : List Cell,
      forEachPlay (plays.takeWhile (fun play => play.quantity.isSome)) h
        = ((forEachPlay plays h).1, true) := by
  induction plays with
  | nil => intro h; rfl
  | cons play rest ih =>
    intro h
    cases hqty : play.quantity with
    | none => simp [forEachPlay, hqty, List.takeWhile]
    | some q => simp [forEachPlay, hqty, List.takeWhile, ih]

theorem forEachPlay_untouched (plays : List PlayElem) (i : Nat) :
    ∀ h : List Cell, (∀ play ∈ plays, numPlayersOf play ≠ i) →
      getIdx (forEachPlay plays h).1 i = getIdx h i := by
  induction plays with
  | nil => intro h _; rfl
  | cons play rest ih =>
    intro h hn
    cases hqty : play.quantity with
    | none => simp only [forEachPlay, hqty]
    | some q =>
      simp only [forEachPlay, hqty]
      rw [ih _ (fun p hp => hn p (List.mem_cons_of_mem _ hp)),
        getIdx_tally_of_ne _ _ _ _ (Ne.symm (hn play (List.mem_cons_self _ _)))]

theorem qtySum_untouched (plays : List PlayElem) (i : Nat)
    (hn : ∀ play ∈ plays, numPlayersOf play ≠ i) : qtySum plays i = 0 := by
  induction plays with
  | nil => rfl
  | cons play rest ih =>
    simp [qtySum, hn play (List.mem_cons_self _ _),
      ih (fun p hp => hn p (List.mem_cons_of_mem _ hp))]

theorem qtySum_nonneg (plays : List PlayElem) (i : Nat)
    (hq : ∀ play ∈ plays, ∃ q : Int, 0 < q ∧ play.quantity = some (JSNum.int q)) :
    0 ≤ qtySum plays i := by
  induction plays with
  | nil => simp [qtySum]
  | cons play rest ih =>
    obtain ⟨q, hpos, hqty⟩ := hq play (List.mem_cons_self _ _)
    have hrest := ih (fun p hp => hq p (List.mem_cons_of_mem _ hp))
    simp only [qtySum, qtyVal, hqty]
    split <;> omega

theorem forEachPlay_touched (plays : List PlayElem) (i : Nat) :
    ∀ h : List Cell, (∀ play ∈ plays, ∃ q : Int, 0 < q ∧ play.quantity = some (JSNum.int q)) →
      -9007199254740992 ≤ cellVal (getIdx h i) →
      cellVal (getIdx h i) + qtySum plays i ≤ 9007199254740992 →
      (∃ play ∈ plays, numPlayersOf play = i) →
      getIdx (forEachPlay plays h).1 i = some (JSNum.int (cellVal (getIdx h i) + qtySum plays i)) := by
  induction plays with
  | nil => intro h _ _ _ ht; simp at ht
  | cons play rest ih =>
    intro h hq hlow hsum ht
    obtain ⟨q, hpos, hqty⟩ := hq play (List.mem_cons_self _ _)
    have hq' : ∀ p ∈ rest, ∃ q : Int, 0 < q ∧ p.quantity = some (JSNum.int q) :=
      fun p hp => hq p (List.mem_cons_of_mem _ hp)
    have hnn := qtySum_nonneg rest i hq'
    simp only [forEachPlay, hqty]
    by_cases hi : numPlayersOf play = i
    · subst hi
      have hs : qtySum (play :: rest) (numPlayersOf play) = q + qtySum rest (numPlayersOf play) := by
        simp [qtySum, qtyVal, hqty]
      rw [hs] at hsum ⊢
      have hself : getIdx (tally h (numPlayersOf play) (JSNum.int q)) (numPlayersOf play)
          = some (JSNum.int (cellVal (getIdx h (numPlayersOf play)) + q)) := by
        rw [getIdx_tally_self, bump_int _ _ (by omega) (by omega)]
      by_cases hrest : ∃ p ∈ rest, numPlayersOf p = numPlayersOf play
      · rw [ih _ hq' (by rw [hself, cellVal_int]; omega)
          (by rw [hself, cellVal_int]; omega) hrest, hself, cellVal_int, add_assoc]
      · have hne : ∀ p ∈ rest, numPlayersOf p ≠ numPlayersOf play :=
          fun p hp hpi => hrest ⟨p, hp, hpi⟩
        rw [forEachPlay_untouched rest _ _ hne, hself, qtySum_untouched rest _ hne, add_zero]
    · have hs : qtySum (play :: rest) i = qtySum rest i := by
        simp [qtySum, hi]
      rw [hs] at hsum ⊢
      have hrest : ∃ p ∈ rest, numPlayersOf p = i := by
        obtain ⟨p, hp, hpi⟩ := ht
        rcases List.mem_cons.1 hp with rfl | hp
        · exact absurd hpi hi
        · exact ⟨p, hp, hpi⟩
      have hsame := getIdx_tally_of_ne h (numPlayersOf play) i (JSNum.int q) (Ne.symm hi)
      rw [ih _ hq' (by rw [hsame]; exact hlow) (by rw [hsame]; exact hsum) hrest, hsame]

/-- C5, as stated, fails: the sum of line 164 is a sum of doubles. Folding the quantities
`2^53 = 9007199254740992` and `1` of two plays without players into the empty histogram leaves
`9007199254740992` at index 0, where the sum of the quantities is `9007199254740993`. -/
theorem aggregation_counterexample :
    (forEachPlay bigPage []).2 = true ∧
    getIdx (forEachPlay bigPage []).1 0 = some (JSNum.int 9007199254740992) ∧
    cellVal (getIdx [] 0) + qtySum bigPage 0 = 9007199254740993 ∧
    cellVal (getIdx (forEachPlay bigPage []).1 0) ≠ cellVal (getIdx [] 0) + qtySum bigPage 0 := by
  decide

/-- C5, amended. Aggregation correctness of the per-page fold in the range where doubles add
integers exactly: when every play of the page carries a positive integer quantity, no cell of
the histogram is below `-2^53` and no sum of a cell and the quantities of its plays is above
`2^53 = 9007199254740992`, the fold runs to the end, every index `i` then holds the previous
value (an unset cell counting as 0) plus the sum of the quantities of the plays whose player
count is `i`, no cell becomes `NaN`, and every index met by a play holds that sum as a number. -/
theorem aggregation_correctness (h : List Cell) (plays : List PlayElem)
    (hq : ∀ play ∈ plays, ∃ q : Int, 0 < q ∧ play.quantity = some (JSNum.int q))
    (hlow : ∀ i : Nat, -9007199254740992 ≤ cellVal (getIdx h i))
    (hsum : ∀ i : Nat, cellVal (getIdx h i) + qtySum plays i ≤ 9007199254740992) :
    (forEachPlay plays h).2 = true ∧
    ∀ i : Nat,
      cellVal (getIdx (forEachPlay plays h).1 i) = cellVal (getIdx h i) + qtySum plays i ∧
      (getIdx (forEachPlay plays h).1 i = some JSNum.nan → getIdx h i = some JSNum.nan) ∧
      ((∃ play ∈ plays, numPlayersOf play = i) →
        getIdx (forEachPlay plays h).1 i
          = some (JSNum.int (cellVal (getIdx h i) + qtySum plays i))) := by
  refine ⟨forEachPlay_done plays h (fun p hp hnone => ?_), fun i => ?_⟩
  · obtain ⟨q, _, hqty⟩ := hq p hp
    rw [hqty] at hnone
    exact absurd hnone (by simp)
  · by_cases ht : ∃ play ∈ plays, numPlayersOf play = i
    · have := forEachPlay_touched plays i h hq (hlow i) (hsum i) ht
      exact ⟨by rw [this]; rfl, by rw [this]; intro hc; simp at hc, fun _ => this⟩
    · have hne : ∀ p ∈ plays, numPlayersOf p ≠ i := fun p hp hpi => ht ⟨p, hp, hpi⟩
      have := forEachPlay_untouched plays i h hne
      exact ⟨by rw [this, qtySum_untouched plays i hne, add_zero], by rw [this]; exact id,
        fun hx => absurd hx ht⟩

theorem iteration_fetch_failed (env : Env) (g : GameRecord) (h : env.fetchData g.page = none) :
    iteration env g = ({ g with playerCounts := gapFill g.playerCounts }, JSNum.int (-1)) := by
  simp [iteration, h]

theorem iteration_folded (env : Env) (g : GameRecord) (doc : XmlDoc) (t : Int)
    (hf : env.fetchData g.page = some doc) (ht : doc.total = some (JSNum.int t))
    (hq : ∀ play ∈ doc.plays, play.quantity ≠ none) :
    iteration env g =
      if t - 100 * (g.page : Int) < 1 then
        ({ g with playerCounts := gapFill (forEachPlay doc.plays g.playerCounts).1,
                  time := { g.time with finish := some env.getDate } },
          JSNum.int (t - 100 * (g.page : Int)))
      else
        ({ g with playerCounts := gapFill (forEachPlay doc.plays g.playerCounts).1,
                  page := g.page + 1 },
          JSNum.int (t - 100 * (g.page : Int))) := by
  have hd := forEachPlay_done doc.plays g.playerCounts hq
  generalize hfe : forEachPlay doc.plays g.playerCounts = r at hd
  obtain ⟨pc, b⟩ := r
  simp only at hd
  subst hd
  simp only [iteration, hf, thenCallback, ht, hfe, jsSub, ltOne]
  by_cases hlt : t - 100 * (g.page : Int) < 1 <;> simp [hlt]

theorem whileLoop_succ_of_gtZero (env : Env) (fuel : Nat) (n : JSNum) (g : GameRecord)
    (h : gtZero n = true) :
    whileLoop env (fuel + 1) n g =
      Run.preceded [Event.fetch g.page, Event.write (iteration env g).1 (env.writeOk g.page)]
        (whileLoop env fuel (iteration env g).2 (iteration env g).1) := by
  simp [whileLoop, h, Run.preceded]

theorem whileLoop_of_not_gtZero (env : Env) (fuel : Nat) (n : JSNum) (g : GameRecord)
    (h : gtZero n = false) :
    whileLoop env fuel n g = { events := [], objGame := g, exited := true } := by
  cases fuel <;> simp [whileLoop, h]

theorem whileLoop_of_gtZero (env : Env) (fuel : Nat) (n : JSNum) (g : GameRecord)
    (h : gtZero n = true) : whileLoop env fuel n g = loopThroughPlays env fuel g := by
  have h1 : gtZero (JSNum.int 1) = true := by decide
  cases fuel <;> simp [loopThroughPlays, whileLoop, h, h1]

theorem loopThroughPlays_succ (env : Env) (fuel : Nat) (g : GameRecord) :
    loopThroughPlays env (fuel + 1) g =
      Run.preceded [Event.fetch g.page, Event.write (iteration env g).1 (env.writeOk g.page)]
        (whileLoop env fuel (iteration env g).2 (iteration env g).1) :=
  whileLoop_succ_of_gtZero env fuel _ g rfl

theorem loop_fetch_failed (env : Env) (fuel : Nat) (g : GameRecord)
    (h : env.fetchData g.page = none) :
    loopThroughPlays env (fuel + 1) g =
      { events := [Event.fetch g.page,
          Event.write { g with playerCounts := gapFill g.playerCounts } (env.writeOk g.page)],
        objGame := { g with playerCounts := gapFill g.playerCounts },
        exited := true } := by
  rw [loopThroughPlays_succ, iteration_fetch_failed env g h,
    whileLoop_of_not_gtZero _ _ _ _ (by simp [gtZero])]
  rfl

theorem loop_finishes (env : Env) (fuel : Nat) (g : GameRecord) (doc : XmlDoc) (t : Int)
    (hf : env.fetchData g.page = some doc) (ht : doc.total = some (JSNum.int t))
    (hq : ∀ play ∈ doc.plays, play.quantity ≠ none) (hlast : t - 100 * (g.page : Int) ≤ 0) :
    loopThroughPlays env (fuel + 1) g =
      { events := [Event.fetch g.page,
          Event.write { g with playerCounts := gapFill (forEachPlay doc.plays g.playerCounts).1,
                               time := { g.time with finish := some env.getDate } }
            (env.writeOk g.page)],
        objGame := { g with playerCounts := gapFill (forEachPlay doc.plays g.playerCounts).1,
                            time := { g.time with finish := some env.getDate } },
        exited := true } := by
  rw [loopThroughPlays_succ, iteration_folded env g doc t hf ht hq, if_pos (by omega),
    whileLoop_of_not_gtZero _ _ _ _ (by simp [gtZero]; omega)]
  rfl

theorem loop_continues_one (env : Env) (docs : Nat → XmlDoc) (fuel : Nat) (g : GameRecord)
    (h : Continues env docs g.page) :
    loopThroughPlays env (fuel + 1) g =
      Run.preceded [Event.fetch g.page, Event.write (advance1 docs g) (env.writeOk g.page)]
        (loopThroughPlays env fuel (advance1 docs g)) := by
  obtain ⟨hf, ⟨t, ht, hpos⟩, hq⟩ := h
  rw [loopThroughPlays_succ, iteration_folded env g (docs g.page) t hf ht hq, if_neg (by omega),
    whileLoop_of_gtZero _ _ _ _ (by simp [gtZero]; omega)]
  rfl

theorem advance_page (docs : Nat → XmlDoc) :
    ∀ (cnt : Nat) (g : GameRecord), (advance docs cnt g).page = g.page + cnt
  | 0, _ => rfl
  | cnt + 1, g => by
    rw [advance, advance_page docs cnt]
    simp [advance1]
    omega

theorem loop_continues (env : Env) (docs : Nat → XmlDoc) (fuel : Nat) :
    ∀ (cnt : Nat) (g : GameRecord),
      (∀ q, g.page ≤ q → q < g.page + cnt → Continues env docs q) →
      loopThroughPlays env (cnt + fuel) g =
        Run.preceded (contEvents env docs cnt g) (loopThroughPlays env fuel (advance docs cnt g))
  | 0, g, _ => by simp [contEvents, advance, Run.preceded]
  | cnt + 1, g, h => by
    have h1 : Continues env docs g.page := h _ (le_refl _) (by omega)
    have hrest : ∀ q, (advance1 docs g).page ≤ q → q < (advance1 docs g).page + cnt →
        Continues env docs q := by
      intro q hq1 hq2
      simp only [advance1] at hq1 hq2
      exact h q (by omega) (by omega)
    rw [show cnt + 1 + fuel = (cnt + fuel) + 1 by omega, loop_continues_one env docs _ g h1,
      loop_continues env docs fuel cnt _ hrest]
    simp [Run.preceded, contEvents, advance]

theorem ltOne_gtZero (n : JSNum) (h : ltOne n = true) : gtZero n = false := by
  cases n with
  | nan => rfl
  | int a =>
    simp only [ltOne, decide_eq_true_eq] at h
    simp only [gtZero, decide_eq_false_iff_not]
    omega

theorem getIdx_gapFill : ∀ (a : List Cell) (i : Nat),
    getIdx (gapFill a) i = if i < a.length then fillCell (getIdx a i) else none
  | [], i => by simp
  | c :: t, 0 => by simp
  | c :: t, i + 1 => by simp [getIdx_gapFill t i]

theorem fillCell_int (c : Cell) : ∃ n : Int, fillCell c = some (JSNum.int n) := by
  rcases c with _ | _ | x
  · exact ⟨0, rfl⟩
  · exact ⟨0, rfl⟩
  · exact ⟨x, rfl⟩

theorem fillCell_getIdx_gapFill (a : List Cell) (i : Nat) :
    fillCell (getIdx (gapFill a) i) = fillCell (getIdx a i) := by
  rw [getIdx_gapFill]
  split
  · exact fillCell_idem _
  · rename_i h
    rw [getIdx_of_length_le a i (by omega)]

theorem foldedPlays_done (xmlDoc : XmlDoc) (h : List Cell) :
    (forEachPlay (foldedPlays xmlDoc) h).2 = true := by
  unfold foldedPlays
  split
  · rfl
  · rw [forEachPlay_takeWhile]

theorem pageFolded_done (env : Env) (q : Nat) (h : List Cell) :
    (forEachPlay (pageFolded env q) h).2 = true := by
  unfold pageFolded
  split
  · rfl
  · exact foldedPlays_done _ h

/-- Every pass of the loop body is of one of three kinds: stopped by the
`catch` handler, finished, or moved on to the next page. -/
theorem iteration_cases (env : Env) (g : GameRecord) :
    iteration env g =
        ({ g with playerCounts := gapFill (forEachPlay (pageFolded env g.page) g.playerCounts).1 },
          JSNum.int (-1)) ∨
    (∃ n, gtZero n = false ∧ iteration env g =
        ({ g with playerCounts := gapFill (forEachPlay (pageFolded env g.page) g.playerCounts).1,
                  time := { g.time with finish := some env.getDate } }, n)) ∨
    (∃ n, iteration env g =
        ({ g with playerCounts := gapFill (forEachPlay (pageFolded env g.page) g.playerCounts).1,
                  page := g.page + 1 }, n)) := by
  cases hf : env.fetchData g.page with
  | none =>
    left
    simp [iteration, hf, pageFolded, forEachPlay]
  | some doc =>
    cases ht : doc.total with
    | none =>
      left
      simp [iteration, hf, thenCallback, ht, pageFolded, foldedPlays, forEachPlay]
    | some total =>
      have hfold : (forEachPlay (pageFolded env g.page) g.playerCounts).1
          = (forEachPlay doc.plays g.playerCounts).1 := by
        simp [pageFolded, hf, foldedPlays, ht, forEachPlay_takeWhile]
      rw [hfold]
      generalize hfe : forEachPlay doc.plays g.playerCounts = r
      obtain ⟨pc, b⟩ := r
      cases b with
      | false =>
        left
        simp [iteration, hf, thenCallback, ht, hfe]
      | true =>
        by_cases hlt : ltOne (jsSub total (100 * (g.page : Int))) = true
        · right; left
          exact ⟨jsSub total (100 * (g.page : Int)), ltOne_gtZero _ hlt,
            by simp [iteration, hf, thenCallback, ht, hfe, hlt]⟩
        · right; right
          exact ⟨jsSub total (100 * (g.page : Int)),
            by simp [iteration, hf, thenCallback, ht, hfe, hlt]⟩

theorem iteration_playerCounts (env : Env) (g : GameRecord) :
    (iteration env g).1.playerCounts
      = gapFill (forEachPlay (pageFolded env g.page) g.playerCounts).1 := by
  rcases iteration_cases env g with h | ⟨n, _, h⟩ | ⟨n, h⟩ <;> rw [h]

theorem iteration_page_le (env : Env) (g : GameRecord) : g.page ≤ (iteration env g).1.page := by
  rcases iteration_cases env g with h | ⟨n, _, h⟩ | ⟨n, h⟩
  · rw [h]
  · rw [h]
  · rw [h]; exact Nat.le_succ _

theorem iteration_start (env : Env) (g : GameRecord) :
    (iteration env g).1.time.start = g.time.start := by
  rcases iteration_cases env g with h | ⟨n, _, h⟩ | ⟨n, h⟩ <;> rw [h]

theorem iteration_page_of_gtZero (env : Env) (g : GameRecord)
    (hpos : gtZero (iteration env g).2 = true) : (iteration env g).1.page = g.page + 1 := by
  rcases iteration_cases env g with h | ⟨n, hn, h⟩ | ⟨n, h⟩
  · rw [h] at hpos; simp [gtZero] at hpos
  · rw [h] at hpos; simp [hn] at hpos
  · rw [h]

@[simp] theorem fetchedPages_append (a b : List Event) :
    fetchedPages (a ++ b) = fetchedPages a ++ fetchedPages b := by
  induction a with
  | nil => rfl
  | cons e es ih => cases e <;> simp [fetchedPages, ih]

@[simp] theorem writtenRecords_append (a b : List Event) :
    writtenRecords (a ++ b) = writtenRecords a ++ writtenRecords b := by
  induction a with
  | nil => rfl
  | cons e es ih => cases e <;> simp [writtenRecords, ih]

theorem storeAfter_append (a b : List Event) :
    ∀ record, storeAfter record (a ++ b) = storeAfter (storeAfter record a) b := by
  induction a with
  | nil => intro record; rfl
  | cons e es ih => intro record; cases e <;> simp [storeAfter, ih]

/-- The events of a run that has fuel left start with the fetch and the write of its first page. -/
theorem whileLoop_written (env : Env) (fuel : Nat) (n : JSNum) (g : GameRecord)
    (h : gtZero n = true) :
    writtenRecords (whileLoop env (fuel + 1) n g).events =
      (iteration env g).1 ::
        writtenRecords (whileLoop env fuel (iteration env g).2 (iteration env g).1).events ∧
    fetchedPages (whileLoop env (fuel + 1) n g).events =
      g.page :: fetchedPages (whileLoop env fuel (iteration env g).2 (iteration env g).1).events := by
  rw [whileLoop_succ_of_gtZero env fuel n g h]
  simp [Run.preceded, writtenRecords, fetchedPages]

theorem whileLoop_events_nil (env : Env) (fuel : Nat) (n : JSNum) (g : GameRecord)
    (h : gtZero n = false) : (whileLoop env fuel n g).events = [] := by
  rw [whileLoop_of_not_gtZero env fuel n g h]

theorem whileLoop_zero_events (env : Env) (n : JSNum) (g : GameRecord) :
    (whileLoop env 0 n g).events = [] := rfl

theorem advance_eq (docs : Nat → XmlDoc) :
    ∀ (cnt : Nat) (g : GameRecord),
      advance docs cnt g =
        { g with page := g.page + cnt, playerCounts := (advance docs cnt g).playerCounts }
  | 0, _ => rfl
  | cnt + 1, g => by
    rw [advance]
    conv_lhs => rw [advance_eq docs cnt (advance1 docs g)]
    simp [advance1, Nat.add_assoc, Nat.add_comm 1 cnt]

theorem advance_playerCounts (docs : Nat → XmlDoc) :
    ∀ (cnt : Nat) (g : GameRecord),
      (∀ q, g.page ≤ q → q < g.page + cnt → ∀ play ∈ (docs q).plays, play.quantity ≠ none) →
      gapFill (advance docs cnt g).playerCounts
        = gapFill (forEachPlay (playsOfPages docs g.page cnt) g.playerCounts).1
  | 0, _, _ => rfl
  | cnt + 1, g, h => by
    have h1 : (forEachPlay (docs g.page).plays g.playerCounts).2 = true :=
      forEachPlay_done _ _ (h g.page (le_refl _) (by omega))
    have hrest : ∀ q, (advance1 docs g).page ≤ q → q < (advance1 docs g).page + cnt →
        ∀ play ∈ (docs q).plays, play.quantity ≠ none := by
      intro q hq1 hq2
      simp only [advance1] at hq1 hq2
      exact h q (by omega) (by omega)
    rw [advance, advance_playerCounts docs cnt _ hrest, playsOfPages,
      forEachPlay_append _ _ _ h1]
    simp only [advance1]
    exact forEachPlay_gapFill _ _

theorem fetchedPages_contEvents (env : Env) (docs : Nat → XmlDoc) :
    ∀ (cnt : Nat) (g : GameRecord),
      fetchedPages (contEvents env docs cnt g) = List.range' g.page cnt
  | 0, _ => rfl
  | cnt + 1, g => by
    simp [contEvents, fetchedPages, fetchedPages_contEvents env docs cnt, advance1,
      List.range'_succ]

theorem storeAfter_write_last (record : Option GameRecord) (es : List Event) (p : Nat)
    (w : GameRecord) : storeAfter record (es ++ [Event.fetch p, Event.write w true]) = some w := by
  rw [storeAfter_append]
  simp [storeAfter]

theorem getLast_written_last (es : List Event) (p : Nat) (w : GameRecord) (ok : Bool) :
    (writtenRecords (es ++ [Event.fetch p, Event.write w ok])).getLast? = some w := by
  simp [writtenRecords]

/-- A run whose first `cnt` pages are folded and leave plays to fetch, and whose next fetch fails. -/
theorem loop_fails_after (env : Env) (docs : Nat → XmlDoc) (cnt fuel : Nat) (g : GameRecord)
    (hcont : ∀ q, g.page ≤ q → q < g.page + cnt → Continues env docs q)
    (hfail : env.fetchData (g.page + cnt) = none) :
    loopThroughPlays env (cnt + (fuel + 1)) g =
      { events := contEvents env docs cnt g ++
          [Event.fetch (g.page + cnt),
            Event.write { g with page := g.page + cnt,
                                 playerCounts := gapFill (forEachPlay
                                   (playsOfPages docs g.page cnt) g.playerCounts).1 }
              (env.writeOk (g.page + cnt))],
        objGame := { g with page := g.page + cnt,
                            playerCounts := gapFill (forEachPlay
                              (playsOfPages docs g.page cnt) g.playerCounts).1 },
        exited := true } := by
  have hpc := advance_playerCounts docs cnt g (fun q h1 h2 => (hcont q h1 h2).2.2)
  have hpage := advance_page docs cnt g
  rw [loop_continues env docs (fuel + 1) cnt g hcont,
    loop_fetch_failed env fuel _ (by rw [hpage]; exact hfail), hpc, hpage]
  rw [advance_eq docs cnt g]
  rfl

/-- A run whose first `cnt` pages are folded and leave plays to fetch, and whose next page is
folded and leaves none. -/
theorem loop_finishes_after (env : Env) (docs : Nat → XmlDoc) (cnt fuel : Nat) (g : GameRecord)
    (t : Int) (hcont : ∀ q, g.page ≤ q → q < g.page + cnt → Continues env docs q)
    (hf : env.fetchData (g.page + cnt) = some (docs (g.page + cnt)))
    (ht : (docs (g.page + cnt)).total = some (JSNum.int t))
    (hq : ∀ play ∈ (docs (g.page + cnt)).plays, play.quantity ≠ none)
    (hlast : t - 100 * ((g.page + cnt : Nat) : Int) ≤ 0) :
    loopThroughPlays env (cnt + (fuel + 1)) g =
      { events := contEvents env docs cnt g ++
          [Event.fetch (g.page + cnt),
            Event.write { g with page := g.page + cnt,
                                 playerCounts := gapFill (forEachPlay
                                   (playsOfPages docs g.page (cnt + 1)) g.playerCounts).1,
                                 time := { g.time with finish := some env.getDate } }
              (env.writeOk (g.page + cnt))],
        objGame := { g with page := g.page + cnt,
                            playerCounts := gapFill (forEachPlay
                              (playsOfPages docs g.page (cnt + 1)) g.playerCounts).1,
                            time := { g.time with finish := some env.getDate } },
        exited := true } := by
  have hall : ∀ q, g.page ≤ q → q < g.page + (cnt + 1) →
      ∀ play ∈ (docs q).plays, play.quantity ≠ none := by
    intro q h1 h2
    by_cases hq' : q < g.page + cnt
    · exact (hcont q h1 hq').2.2
    · have : q = g.page + cnt := by omega
      subst this
      exact hq
  have hpc := advance_playerCounts docs (cnt + 1) g hall
  have hpage := advance_page docs cnt g
  have hadv : advance docs (cnt + 1) g = advance1 docs (advance docs cnt g) := by
    clear hpc hall hlast hq ht hf hcont hpage
    induction cnt generalizing g with
    | zero => rfl
    | succ n ih => rw [advance, ih, advance]
  rw [hadv] at hpc
  simp only [advance1, gapFill_idem, hpage] at hpc
  rw [loop_continues env docs (fuel + 1) cnt g hcont,
    loop_finishes env fuel _ (docs (g.page + cnt)) t (by rw [hpage]; exact hf) ht hq
      (by rw [hpage]; exact hlast), hpage, hpc]
  rw [advance_eq docs cnt g]
  rfl

/-- C2. Termination arithmetic: in a fresh run in which every fetch succeeds, every page reports
the same total `T` and every play carries a quantity, the loop (given fuel for `n` passes, where
`n = max 1 (ceil (T / 100))`) ends; it has fetched exactly the pages `1, ..., n` in that order,
and the last record written, which is the final `objGame`, has `page = n` and a finish time. -/
theorem termination_arithmetic (env : Env) (docs : Nat → XmlDoc) (T fuel bggid : Nat)
    (title : String) (start : Nat)
    (hfetch : ∀ p, env.fetchData p = some (docs p))
    (htotal : ∀ p, (docs p).total = some (JSNum.int (T : Int)))
    (hqty : ∀ p, ∀ play ∈ (docs p).plays, play.quantity ≠ none)
    (hfuel : max 1 ((T + 99) / 100) ≤ fuel) :
    (script env fuel bggid title start none).exited = true ∧
    fetchedPages (script env fuel bggid title start none).events
      = List.range' 1 (max 1 ((T + 99) / 100)) ∧
    (script env fuel bggid title start none).objGame.page = max 1 ((T + 99) / 100) ∧
    (script env fuel bggid title start none).objGame.time.finish = some env.getDate ∧
    (writtenRecords (script env fuel bggid title start none).events).getLast?
      = some (script env fuel bggid title start none).objGame := by
  obtain ⟨n, hn⟩ : ∃ n, n = max 1 ((T + 99) / 100) := ⟨_, rfl⟩
  have h1 : 1 ≤ n := hn ▸ le_max_left _ _
  have h2 : (T + 99) / 100 ≤ n := hn ▸ le_max_right _ _
  have h3 : n = 1 ∨ n = (T + 99) / 100 := by
    rcases max_choice 1 ((T + 99) / 100) with h | h <;> rw [h] at hn <;> simp [hn]
  rw [← hn] at hfuel ⊢
  obtain ⟨cnt, rfl⟩ : ∃ cnt, n = cnt + 1 := ⟨n - 1, by omega⟩
  obtain ⟨f, rfl⟩ : ∃ f, fuel = cnt + (f + 1) := ⟨fuel - (cnt + 1), by omega⟩
  have hrun := loop_finishes_after env docs cnt f (objGame0 bggid title start) (T : Int)
    (fun q hq1 hq2 => by
      simp only [objGame0] at hq1 hq2
      exact ⟨hfetch q, ⟨T, htotal q, by omega⟩, hqty q⟩)
    (hfetch _) (htotal _) (hqty _) (by simp only [objGame0]; omega)
  simp only [script, readFromIndexedDB]
  rw [hrun]
  refine ⟨rfl, ?_, ?_, rfl, ?_⟩
  · simp only [fetchedPages_append, fetchedPages_contEvents, fetchedPages, objGame0]
    rw [List.range'_concat]
    simp
  · simp [objGame0, Nat.add_comm]
  · exact getLast_written_last _ _ _ _

/-- C2, witness: a total of 250 gives exactly the fetches of pages 1, 2, 3 and `page = 3`. -/
theorem termination_arithmetic_witness :
    (script env250 5 1 "game" 10 none).exited = true ∧
    fetchedPages (script env250 5 1 "game" 10 none).events = [1, 2, 3] ∧
    (script env250 5 1 "game" 10 none).objGame.page = 3 ∧
    (script env250 5 1 "game" 10 none).objGame.time.finish = some 77 ∧
    (writtenRecords (script env250 5 1 "game" 10 none).events).getLast?
      = some (script env250 5 1 "game" 10 none).objGame :=
  termination_arithmetic env250 (fun _ => doc250) 250 5 1 "game" 10
    (fun _ => rfl) (fun _ => rfl)
    (fun _ => (by decide : ∀ play ∈ doc250.plays, play.quantity ≠ none)) (by decide)

/-- C3. Failure checkpoint: in a fresh run in which the pages `1, ..., k - 1` are fetched and
folded, each leaving plays to fetch, and the fetch of page `k` fails, the loop (given fuel for
`k` passes) ends; it has fetched the pages `1, ..., k` and nothing after, and the last record
written has `page = k`, no finish time, and the gap-filled fold of the plays of the pages
`1, ..., k - 1` as histogram; this is the stored record when that write succeeds. -/
theorem failure_checkpoint (env : Env) (docs : Nat → XmlDoc) (k fuel bggid : Nat)
    (title : String) (start : Nat) (hk : 1 ≤ k)
    (hfetch : ∀ q, 1 ≤ q → q < k → env.fetchData q = some (docs q))
    (hremaining : ∀ q, 1 ≤ q → q < k →
      ∃ t : Int, (docs q).total = some (JSNum.int t) ∧ 0 < t - 100 * (q : Int))
    (hqty : ∀ q, 1 ≤ q → q < k → ∀ play ∈ (docs q).plays, play.quantity ≠ none)
    (hfail : env.fetchData k = none) (hfuel : k ≤ fuel) :
    (script env fuel bggid title start none).exited = true ∧
    fetchedPages (script env fuel bggid title start none).events = List.range' 1 k ∧
    (writtenRecords (script env fuel bggid title start none).events).getLast?
      = some { bggid := bggid, name := title, page := k,
               time := { start := start, finish := none },
               playerCounts := gapFill (forEachPlay (playsOfPages docs 1 (k - 1)) []).1 } ∧
    (env.writeOk k = true →
      storeAfter none (script env fuel bggid title start none).events
        = some { bggid := bggid, name := title, page := k,
                 time := { start := start, finish := none },
                 playerCounts := gapFill (forEachPlay (playsOfPages docs 1 (k - 1)) []).1 }) := by
  obtain ⟨cnt, rfl⟩ : ∃ cnt, k = 1 + cnt := ⟨k - 1, by omega⟩
  obtain ⟨f, rfl⟩ : ∃ f, fuel = cnt + (f + 1) := ⟨fuel - (cnt + 1), by omega⟩
  have hrun := loop_fails_after env docs cnt f (objGame0 bggid title start)
    (fun q hq1 hq2 => by
      simp only [objGame0] at hq1 hq2
      exact ⟨hfetch q hq1 hq2, hremaining q hq1 hq2, hqty q hq1 hq2⟩)
    hfail
  simp only [script, readFromIndexedDB]
  rw [hrun]
  simp only [objGame0, Nat.add_sub_cancel_left]
  refine ⟨trivial, ?_, getLast_written_last _ _ _ _, ?_⟩
  · simp only [fetchedPages_append, fetchedPages_contEvents, fetchedPages]
    rw [Nat.add_comm 1 cnt, List.range'_concat]
    simp [Nat.add_comm]
  · intro hok
    rw [hok]
    exact storeAfter_write_last _ _ _ _

/-- C3, witness: pages 1-3 are folded and the fetch of page 4 fails. -/
theorem failure_checkpoint_witness :
    (script envFail4 9 1 "game" 10 none).exited = true ∧
    fetchedPages (script envFail4 9 1 "game" 10 none).events = [1, 2, 3, 4] ∧
    (writtenRecords (script envFail4 9 1 "game" 10 none).events).getLast?
      = some { bggid := 1, name := "game", page := 4,
               time := { start := 10, finish := none },
               playerCounts := [some (JSNum.int 3), some (JSNum.int 0), some (JSNum.int 9)] } ∧
    (envFail4.writeOk 4 = true →
      storeAfter none (script envFail4 9 1 "game" 10 none).events
        = some { bggid := 1, name := "game", page := 4,
                 time := { start := 10, finish := none },
                 playerCounts := [some (JSNum.int 3), some (JSNum.int 0), some (JSNum.int 9)] }) :=
  failure_checkpoint envFail4 (fun _ => doc1000) 4 9 1 "game" 10 (by decide)
    (fun q _ h => by
      have hq : q ≠ 4 := by omega
      simp [envFail4, hq])
    (fun q _ h => ⟨1000, rfl, by omega⟩)
    (fun _ _ _ => (by decide : ∀ play ∈ doc1000.plays, play.quantity ≠ none)) rfl (by decide)

theorem whileLoop_pages_chain (env : Env) :
    ∀ (fuel : Nat) (n : JSNum) (g : GameRecord),
      List.Chain (fun a b : Nat => a ≤ b) g.page
        ((writtenRecords (whileLoop env fuel n g).events).map GameRecord.page)
  | 0, _, _ => List.Chain.nil
  | fuel + 1, n, g => by
    cases hn : gtZero n with
    | false =>
      rw [whileLoop_events_nil env _ n g hn]
      exact List.Chain.nil
    | true =>
      rw [(whileLoop_written env fuel n g hn).1, List.map_cons]
      exact List.Chain.cons (iteration_page_le env g) (whileLoop_pages_chain env fuel _ _)

theorem whileLoop_start (env : Env) :
    ∀ (fuel : Nat) (n : JSNum) (g : GameRecord),
      ∀ w ∈ writtenRecords (whileLoop env fuel n g).events, w.time.start = g.time.start
  | 0, _, _ => by simp [whileLoop_zero_events, writtenRecords]
  | fuel + 1, n, g => by
    cases hn : gtZero n with
    | false =>
      rw [whileLoop_events_nil env _ n g hn]
      simp [writtenRecords]
    | true =>
      rw [(whileLoop_written env fuel n g hn).1]
      intro w hw
      rcases List.mem_cons.1 hw with rfl | hw
      · exact iteration_start env g
      · rw [whileLoop_start env fuel _ _ w hw, iteration_start]

theorem whileLoop_written_int (env : Env) :
    ∀ (fuel : Nat) (n : JSNum) (g : GameRecord),
      ∀ w ∈ writtenRecords (whileLoop env fuel n g).events,
        ∀ i, i < w.playerCounts.length → ∃ m : Int, getIdx w.playerCounts i = some (JSNum.int m)
  | 0, _, _ => by simp [whileLoop_zero_events, writtenRecords]
  | fuel + 1, n, g => by
    cases hn : gtZero n with
    | false =>
      rw [whileLoop_events_nil env _ n g hn]
      simp [writtenRecords]
    | true =>
      rw [(whileLoop_written env fuel n g hn).1]
      intro w hw
      rcases List.mem_cons.1 hw with rfl | hw
      · intro i hi
        rw [iteration_playerCounts] at hi ⊢
        rw [getIdx_gapFill, if_pos (by simpa using hi)]
        exact fillCell_int _
      · exact whileLoop_written_int env fuel _ _ w hw

theorem whileLoop_written_zero (env : Env) (i : Nat) :
    ∀ (fuel : Nat) (n : JSNum) (g : GameRecord),
      fillCell (getIdx g.playerCounts i) = some (JSNum.int 0) →
      (∀ p ∈ fetchedPages (whileLoop env fuel n g).events,
        ∀ play ∈ pageFolded env p, numPlayersOf play ≠ i) →
      ∀ w ∈ writtenRecords (whileLoop env fuel n g).events,
        i < w.playerCounts.length → getIdx w.playerCounts i = some (JSNum.int 0)
  | 0, _, _ => by simp [whileLoop_zero_events, writtenRecords]
  | fuel + 1, n, g => by
    cases hn : gtZero n with
    | false =>
      rw [whileLoop_events_nil env _ n g hn]
      simp [writtenRecords]
    | true =>
      rw [(whileLoop_written env fuel n g hn).1, (whileLoop_written env fuel n g hn).2]
      intro h0 hun w hw
      have hcell : getIdx (forEachPlay (pageFolded env g.page) g.playerCounts).1 i
          = getIdx g.playerCounts i :=
        forEachPlay_untouched _ i _ (hun g.page (List.mem_cons_self _ _))
      have hnext : fillCell (getIdx (iteration env g).1.playerCounts i) = some (JSNum.int 0) := by
        rw [iteration_playerCounts, fillCell_getIdx_gapFill, hcell, h0]
      rcases List.mem_cons.1 hw with rfl | hw
      · intro hi
        rw [iteration_playerCounts] at hi ⊢
        rw [getIdx_gapFill, if_pos (by simpa using hi), hcell, h0]
      · exact whileLoop_written_zero env i fuel _ _ hnext
          (fun p hp => hun p (List.mem_cons_of_mem _ hp)) w hw

theorem whileLoop_written_histogram (env : Env) :
    ∀ (fuel : Nat) (n : JSNum) (g : GameRecord) (j : Nat) (w : GameRecord),
      (writtenRecords (whileLoop env fuel n g).events)[j]? = some w →
      w.playerCounts = gapFill (forEachPlay (foldedOfPages env g.page (j + 1)) g.playerCounts).1
  | 0, _, _, _, _ => by simp [whileLoop_zero_events, writtenRecords]
  | fuel + 1, n, g, j, w => by
    cases hn : gtZero n with
    | false =>
      rw [whileLoop_events_nil env _ n g hn]
      simp [writtenRecords]
    | true =>
      rw [(whileLoop_written env fuel n g hn).1]
      cases j with
      | zero =>
        intro hw
        simp only [List.getElem?_cons_zero, Option.some.injEq] at hw
        subst hw
        rw [iteration_playerCounts]
        simp [foldedOfPages]
      | succ j =>
        intro hw
        simp only [List.getElem?_cons_succ] at hw
        cases hn' : gtZero (iteration env g).2 with
        | false =>
          rw [whileLoop_events_nil env _ _ _ hn'] at hw
          simp [writtenRecords] at hw
        | true =>
          rw [whileLoop_written_histogram env fuel _ _ j w hw,
            iteration_page_of_gtZero env g hn', iteration_playerCounts, forEachPlay_gapFill]
          conv_rhs => rw [foldedOfPages, forEachPlay_append _ _ _ (pageFolded_done env _ _)]

/-- C5, witness: folding the page `{2:3}` and then the page `{2:4, 0:1}` into the empty
histogram yields `{0:1, 2:7}`. -/
theorem aggregation_correctness_witness :
    forEachPlay pageB (forEachPlay pageA []).1
      = ([some (JSNum.int 1), none, some (JSNum.int 7)], true) ∧
    gapFill (forEachPlay pageB (forEachPlay pageA []).1).1
      = [some (JSNum.int 1), some (JSNum.int 0), some (JSNum.int 7)] ∧
    cellVal (getIdx (forEachPlay pageB (forEachPlay pageA []).1).1 2)
      = cellVal (getIdx (forEachPlay pageA []).1 2) + qtySum pageB 2 :=
  ⟨by decide, by decide,
    ((aggregation_correctness (forEachPlay pageA []).1 pageB
      (fun play hp => by
        simp only [pageB, List.mem_cons, List.mem_singleton, List.not_mem_nil, or_false] at hp
        rcases hp with rfl | rfl
        · exact ⟨4, by decide, rfl⟩
        · exact ⟨1, by decide, rfl⟩)
      (fun i => by
        have hA : (forEachPlay pageA []).1 = [none, none, some (JSNum.int 3)] := by decide
        rw [hA]
        rcases i with _ | _ | _ | i <;> simp [getIdx, cellVal])
      (fun i => by
        have hA : (forEachPlay pageA []).1 = [none, none, some (JSNum.int 3)] := by decide
        have h1 : cellVal (getIdx (forEachPlay pageA []).1 i) ≤ 3 := by
          rw [hA]
          rcases i with _ | _ | _ | i <;> simp [getIdx, cellVal]
        have h2 : qtySum pageB i ≤ 5 := by
          simp only [pageB, playOf, qtySum, qtyVal]
          split <;> split <;> omega
        omega)).2 2).1⟩

/-- C4. Resumption: for a stored record without finish time, `readFromIndexedDB` makes its
page, histogram and start time the working state; the first page fetched is the stored page;
every record written keeps the stored start time; and the histogram of the write number `j + 1`
is the stored histogram with the plays folded while the `j + 1` pages from the stored page on
were processed, gap-filled. -/
theorem resumption (env : Env) (fuel bggid : Nat) (title : String) (start : Nat) (r : GameRecord)
    (hr : r.time.finish = none) :
    readFromIndexedDB (some r) (objGame0 bggid title start)
      = { bggid := bggid, name := title, page := r.page,
          time := { start := r.time.start, finish := none }, playerCounts := r.playerCounts } ∧
    (fetchedPages (script env (fuel + 1) bggid title start (some r)).events).head? = some r.page ∧
    (∀ w ∈ writtenRecords (script env fuel bggid title start (some r)).events,
      w.time.start = r.time.start) ∧
    (∀ (j : Nat) (w : GameRecord),
      (writtenRecords (script env fuel bggid title start (some r)).events)[j]? = some w →
      w.playerCounts = gapFill (forEachPlay (foldedOfPages env r.page (j + 1)) r.playerCounts).1) := by
  have hread : readFromIndexedDB (some r) (objGame0 bggid title start)
      = { bggid := bggid, name := title, page := r.page,
          time := { start := r.time.start, finish := none }, playerCounts := r.playerCounts } := by
    simp [readFromIndexedDB, hr, objGame0]
  refine ⟨hread, ?_, ?_, ?_⟩
  · simp only [script, hread, loopThroughPlays]
    rw [(whileLoop_written env fuel _ _ (by decide)).2]
    rfl
  · intro w hw
    simp only [script, hread, loopThroughPlays] at hw
    have h := whileLoop_start env fuel _ _ w hw
    exact h
  · intro j w hw
    simp only [script, hread, loopThroughPlays] at hw
    have h := whileLoop_written_histogram env fuel _ _ j w hw
    exact h

/-- C4, witness: from the stored state `page = 2`, histogram `{0:5}`, the run fetches the pages
2 and 3 and writes histograms that extend `{0:5}`. -/
theorem resumption_witness :
    fetchedPages (script env250 5 1 "game" 10 (some stored2)).events = [2, 3] ∧
    (writtenRecords (script env250 5 1 "game" 10 (some stored2)).events).map
        GameRecord.playerCounts
      = [[some (JSNum.int 5), some (JSNum.int 0), some (JSNum.int 3), some (JSNum.int 0),
            some (JSNum.int 1)],
         [some (JSNum.int 5), some (JSNum.int 0), some (JSNum.int 6), some (JSNum.int 0),
            some (JSNum.int 2)]] ∧
    (fetchedPages (script env250 (4 + 1) 1 "game" 10 (some stored2)).events).head? = some 2 ∧
    readFromIndexedDB (some stored2) (objGame0 1 "game" 10)
      = { bggid := 1, name := "game", page := 2, time := { start := 3, finish := none },
          playerCounts := [some (JSNum.int 5)] } :=
  ⟨by decide, by decide, (resumption env250 4 1 "game" 10 stored2 rfl).2.1,
    (resumption env250 4 1 "game" 10 stored2 rfl).1⟩

/-- C6. Gap-filling invariant: whatever the starting state, every record that the loop writes
has a number at every index of its histogram; and an index that is unset in the starting
histogram and is the player count of no play folded during the run holds 0. -/
theorem gap_filling (env : Env) (fuel : Nat) (g : GameRecord) (w : GameRecord)
    (hw : w ∈ writtenRecords (loopThroughPlays env fuel g).events) :
    (∀ i, i < w.playerCounts.length → ∃ m : Int, getIdx w.playerCounts i = some (JSNum.int m)) ∧
    (∀ i, i < w.playerCounts.length → isNaN (getIdx g.playerCounts i) = true →
      (∀ p ∈ fetchedPages (loopThroughPlays env fuel g).events,
        ∀ play ∈ pageFolded env p, numPlayersOf play ≠ i) →
      getIdx w.playerCounts i = some (JSNum.int 0)) := by
  refine ⟨whileLoop_written_int env fuel _ g w hw, fun i hi hnan hun => ?_⟩
  exact whileLoop_written_zero env i fuel _ g (by simp [fillCell, hnan]) hun w hw hi

/-- C6, witness: folds that populate the indices 0 and 4 and never index 3 write index 3 with
value 0. -/
theorem gap_filling_witness :
    (writtenRecords (loopThroughPlays env04 5 (objGame0 1 "game" 10)).events).map
        GameRecord.playerCounts
      = [[some (JSNum.int 1), some (JSNum.int 0), some (JSNum.int 0), some (JSNum.int 0),
            some (JSNum.int 2)],
         [some (JSNum.int 2), some (JSNum.int 0), some (JSNum.int 0), some (JSNum.int 0),
            some (JSNum.int 4)]] ∧
    getIdx (advance1 (fun _ => doc04) (objGame0 1 "game" 10)).playerCounts 3
      = some (JSNum.int 0) :=
  ⟨by decide,
    (gap_filling env04 5 (objGame0 1 "game" 10) (advance1 (fun _ => doc04) (objGame0 1 "game" 10))
      (by decide)).2 3 (by decide) (by decide) (by decide)⟩

/-- C9. Cursor invariant: when the stored record, if there is an unfinished one, has a page of
at least 1, the run starts at a page of at least 1, the first page written is at least the
starting page, the page written never decreases from one write to the next, and every page
written is at least 1. -/
theorem cursor_invariant (env : Env) (fuel bggid : Nat) (title : String) (start : Nat)
    (record : Option GameRecord)
    (hp : ∀ r, record = some r → r.time.finish = none → 1 ≤ r.page) :
    1 ≤ (readFromIndexedDB record (objGame0 bggid title start)).page ∧
    List.Chain (fun a b : Nat => a ≤ b) (readFromIndexedDB record (objGame0 bggid title start)).page
      ((writtenRecords (script env fuel bggid title start record).events).map GameRecord.page) ∧
    ∀ w ∈ writtenRecords (script env fuel bggid title start record).events, 1 ≤ w.page := by
  have h1 : 1 ≤ (readFromIndexedDB record (objGame0 bggid title start)).page := by
    cases record with
    | none => simp [readFromIndexedDB, objGame0]
    | some r =>
      cases hf : r.time.finish with
      | none => simpa [readFromIndexedDB, hf] using hp r rfl hf
      | some f => simp [readFromIndexedDB, hf, objGame0]
  have hchain := whileLoop_pages_chain env fuel (JSNum.int 1)
    (readFromIndexedDB record (objGame0 bggid title start))
  refine ⟨h1, hchain, fun w hw => ?_⟩
  have hmem : w.page ∈ (writtenRecords (script env fuel bggid title start record).events).map
      GameRecord.page := List.mem_map_of_mem _ hw
  exact le_trans h1 (List.Chain.rel hchain hmem)

/-- C9, witness: resuming at page 2 writes the pages 3 and 3. -/
theorem cursor_invariant_witness :
    (writtenRecords (script env250 5 1 "game" 10 (some stored2)).events).map GameRecord.page
      = [3, 3] ∧
    1 ≤ (readFromIndexedDB (some stored2) (objGame0 1 "game" 10)).page ∧
    List.Chain (fun a b : Nat => a ≤ b) (readFromIndexedDB (some stored2) (objGame0 1 "game" 10)).page
      ((writtenRecords (script env250 5 1 "game" 10 (some stored2)).events).map GameRecord.page) :=
  ⟨by decide, (cursor_invariant env250 5 1 "game" 10 (some stored2) (fun r hr _ => by
      cases hr; decide)).1,
    (cursor_invariant env250 5 1 "game" 10 (some stored2) (fun r hr _ => by
      cases hr; decide)).2.1⟩

theorem takeWhile_split {α : Type} (p : α → Bool) :
    ∀ l : List α, ((∀ x ∈ l, p x = true) ∧ l.takeWhile p = l) ∨
      ∃ bad rest, p bad = false ∧ l = l.takeWhile p ++ bad :: rest
  | [] => Or.inl ⟨by simp, rfl⟩
  | x :: t => by
    cases hx : p x with
    | false => exact Or.inr ⟨x, t, hx, by simp [List.takeWhile, hx]⟩
    | true =>
      rcases takeWhile_split p t with ⟨hall, ht⟩ | ⟨bad, rest, hbad, ht⟩
      · exact Or.inl ⟨by simpa [hx] using hall, by simp [List.takeWhile, hx, ht]⟩
      · refine Or.inr ⟨bad, rest, hbad, ?_⟩
        simp only [List.takeWhile, hx, List.cons_append]
        rw [← ht]

theorem iteration_writeOk (env : Env) (ok : Nat → Bool) (g : GameRecord) :
    iteration { env with writeOk := ok } g = iteration env g := rfl

/-- The pages fetched, the final state and the way the loop ends do not depend on the outcome
of the writes. -/
theorem whileLoop_writeOk (env : Env) (ok : Nat → Bool) :
    ∀ (fuel : Nat) (n : JSNum) (g : GameRecord),
      fetchedPages (whileLoop { env with writeOk := ok } fuel n g).events
          = fetchedPages (whileLoop env fuel n g).events ∧
      (whileLoop { env with writeOk := ok } fuel n g).objGame = (whileLoop env fuel n g).objGame ∧
      (whileLoop { env with writeOk := ok } fuel n g).exited = (whileLoop env fuel n g).exited
  | 0, _, _ => ⟨rfl, rfl, rfl⟩
  | fuel + 1, n, g => by
    cases hn : gtZero n with
    | false => simp [whileLoop, hn]
    | true =>
      obtain ⟨h1, h2, h3⟩ := whileLoop_writeOk env ok fuel (iteration env g).2 (iteration env g).1
      rw [whileLoop_succ_of_gtZero _ fuel n g hn, whileLoop_succ_of_gtZero _ fuel n g hn,
        iteration_writeOk]
      simp [Run.preceded, fetchedPages, h1, h2, h3]

/-- C7, as stated, fails: a page whose second play has no `quantity` is written with its first
play folded in and its third play not; the histogram written is neither the previous one nor
the previous one with every play of the page folded in. -/
theorem half_applied_page_counterexample :
    envBroken.fetchData (objGame0 1 "game" 10).page = some docBroken ∧
    docBroken.plays = [playOf 3 2] ++ [{ quantity := none, children := [] }, playOf 1 0] ∧
    (iteration envBroken (objGame0 1 "game" 10)).1.playerCounts
      = gapFill (forEachPlay [playOf 3 2] (objGame0 1 "game" 10).playerCounts).1 ∧
    ¬ ((iteration envBroken (objGame0 1 "game" 10)).1.playerCounts
          = gapFill (objGame0 1 "game" 10).playerCounts ∨
       ((forEachPlay docBroken.plays (objGame0 1 "game" 10).playerCounts).2 = true ∧
        (iteration envBroken (objGame0 1 "game" 10)).1.playerCounts
          = gapFill (forEachPlay docBroken.plays (objGame0 1 "game" 10).playerCounts).1)) ∧
    (iteration envBroken (objGame0 1 "game" 10)).1.playerCounts
      ≠ gapFill (forEachPlay [playOf 3 2, playOf 1 0] (objGame0 1 "game" 10).playerCounts).1 := by
  decide

/-- C7, amended. Unless the response has a `total` and a play other than the first has no
`quantity`, the histogram written for a page is the previous histogram gap-filled (on a fetch
failure, on a response without `total`, or when the first play has no `quantity`) or the
previous histogram with every play of the page folded in, gap-filled. -/
theorem page_all_or_nothing (env : Env) (g : GameRecord) :
    (iteration env g).1.playerCounts = gapFill g.playerCounts ∨
    (∃ doc, env.fetchData g.page = some doc ∧
      (forEachPlay doc.plays g.playerCounts).2 = true ∧
      (iteration env g).1.playerCounts = gapFill (forEachPlay doc.plays g.playerCounts).1) ∨
    (∃ doc first pre bad rest, env.fetchData g.page = some doc ∧ doc.total ≠ none ∧
      bad.quantity = none ∧ doc.plays = (first :: pre) ++ bad :: rest) := by
  rw [iteration_playerCounts]
  cases hf : env.fetchData g.page with
  | none => left; simp [pageFolded, hf, forEachPlay]
  | some doc =>
    cases ht : doc.total with
    | none => left; simp [pageFolded, hf, foldedPlays, ht, forEachPlay]
    | some total =>
      have hfolded : pageFolded env g.page
          = doc.plays.takeWhile (fun play => play.quantity.isSome) := by
        simp [pageFolded, hf, foldedPlays, ht]
      rcases takeWhile_split (fun play : PlayElem => play.quantity.isSome) doc.plays with
        ⟨hall, htw⟩ | ⟨bad, rest, hbad, hsplit⟩
      · right; left
        refine ⟨doc, rfl, forEachPlay_done _ _ (fun play hp hnone => ?_), ?_⟩
        · have := hall play hp
          simp [hnone] at this
        · rw [hfolded, htw]
      · cases hpre : doc.plays.takeWhile (fun play => play.quantity.isSome) with
        | nil => left; rw [hfolded, hpre]; rfl
        | cons first pre =>
          right; right
          refine ⟨doc, first, pre, bad, rest, rfl, by simp [ht], ?_, ?_⟩
          · simpa using hbad
          · rw [hpre] at hsplit
            exact hsplit

/-- C1, as stated, fails: with a finished record in the store and a remote whose fetches
fail, running the script again fetches page 1 and replaces the stored record by an unfinished
one with an empty histogram. -/
theorem rerun_counterexample :
    storedDone.time.finish = some 50 ∧
    fetchedPages (script envDown 5 1 "game" 20 (some storedDone)).events = [1] ∧
    storeAfter (some storedDone) (script envDown 5 1 "game" 20 (some storedDone)).events
      = some { bggid := 1, name := "game", page := 1, time := { start := 20, finish := none },
               playerCounts := [] } ∧
    storeAfter (some storedDone) (script envDown 5 1 "game" 20 (some storedDone)).events
      ≠ some storedDone := by
  decide

/-- C1, amended. For a stored record with a finish time, `readFromIndexedDB` takes nothing
from the record, and the script runs exactly as on an empty store: from page 1, with an empty
histogram and the new start time; with fuel for one pass its first fetch is page 1. -/
theorem rerun_of_finished (env : Env) (fuel bggid : Nat) (title : String) (start : Nat)
    (r : GameRecord) (hr : r.time.finish ≠ none) :
    readFromIndexedDB (some r) (objGame0 bggid title start) = objGame0 bggid title start ∧
    script env fuel bggid title start (some r) = script env fuel bggid title start none ∧
    (fetchedPages (script env (fuel + 1) bggid title start (some r)).events).head? = some 1 := by
  have hread : readFromIndexedDB (some r) (objGame0 bggid title start)
      = objGame0 bggid title start := by
    cases hf : r.time.finish with
    | none => exact absurd hf hr
    | some f => simp [readFromIndexedDB, hf]
  refine ⟨hread, by simp only [script, hread]; rfl, ?_⟩
  simp only [script, hread, loopThroughPlays]
  rw [(whileLoop_written env fuel _ _ (by decide)).2]
  rfl

/-- C1, amended, witness: the finished record `storedDone`. -/
theorem rerun_of_finished_witness :
    storedDone.time.finish ≠ none ∧
    readFromIndexedDB (some storedDone) (objGame0 1 "game" 20) = objGame0 1 "game" 20 ∧
    script env250 5 1 "game" 20 (some storedDone) = script env250 5 1 "game" 20 none ∧
    (fetchedPages (script env250 (4 + 1) 1 "game" 20 (some storedDone)).events).head? = some 1 :=
  ⟨by decide, rerun_of_finished env250 4 1 "game" 20 storedDone (by decide) |>.1,
    rerun_of_finished env250 5 1 "game" 20 storedDone (by decide) |>.2.1,
    rerun_of_finished env250 4 1 "game" 20 storedDone (by decide) |>.2.2⟩

/-- C8, the code at a failing input: the `put` issued after page 1 fails, and the run goes on
to fetch the pages 2 and 3, sets the finish time and ends normally. -/
theorem write_failure_ignored :
    (loopThroughPlays envWriteFail 5 (objGame0 1 "game" 10)).events.take 2
      = [Event.fetch 1,
         Event.write { bggid := 1, name := "game", page := 2,
                       time := { start := 10, finish := none },
                       playerCounts := [some (JSNum.int 0), some (JSNum.int 0),
                         some (JSNum.int 3), some (JSNum.int 0), some (JSNum.int 1)] } false] ∧
    fetchedPages (loopThroughPlays envWriteFail 5 (objGame0 1 "game" 10)).events = [1, 2, 3] ∧
    (loopThroughPlays envWriteFail 5 (objGame0 1 "game" 10)).exited = true ∧
    (loopThroughPlays envWriteFail 5 (objGame0 1 "game" 10)).objGame.time.finish = some 77 := by
  decide

theorem playsOfPages_append (docs : Nat → XmlDoc) :
    ∀ (a b p : Nat),
      playsOfPages docs p (a + b) = playsOfPages docs p a ++ playsOfPages docs (p + a) b
  | 0, b, p => by simp [playsOfPages]
  | a + 1, b, p => by
    rw [show a + 1 + b = (a + b) + 1 by omega, playsOfPages, playsOfPages,
      playsOfPages_append docs a b (p + 1), List.append_assoc,
      show p + 1 + a = p + (a + 1) by omega]

theorem playsOfPages_quantity (docs : Nat → XmlDoc)
    (hqty : ∀ p, ∀ play ∈ (docs p).plays, play.quantity ≠ none) :
    ∀ (cnt p : Nat), ∀ play ∈ playsOfPages docs p cnt, play.quantity ≠ none
  | 0, _ => by simp [playsOfPages]
  | cnt + 1, p => by
    intro play hp
    rw [playsOfPages, List.mem_append] at hp
    rcases hp with hp | hp
    · exact hqty p play hp
    · exact playsOfPages_quantity docs hqty cnt (p + 1) play hp

theorem okFetched_append (env : Env) (a b : List Event) :
    okFetched env (a ++ b) = okFetched env a ++ okFetched env b := by
  simp [okFetched]

theorem okFetched_contEvents (env : Env) (docs : Nat → XmlDoc) (cnt : Nat) (g : GameRecord)
    (h : ∀ q, g.page ≤ q → q < g.page + cnt → env.fetchData q = some (docs q)) :
    okFetched env (contEvents env docs cnt g) = List.range' g.page cnt := by
  rw [okFetched, fetchedPages_contEvents, List.filter_eq_self]
  intro q hq
  rw [List.mem_range'_1] at hq
  rw [h q hq.1 hq.2]
  rfl

theorem loop_fails_after_mk (env : Env) (docs : Nat → XmlDoc) (cnt fuel b : Nat) (nm : String)
    (p : Nat) (tm : Time) (pc : List Cell)
    (hcont : ∀ q, p ≤ q → q < p + cnt → Continues env docs q)
    (hfail : env.fetchData (p + cnt) = none) :
    loopThroughPlays env (cnt + (fuel + 1))
        { bggid := b, name := nm, page := p, time := tm, playerCounts := pc } =
      { events := contEvents env docs cnt
            { bggid := b, name := nm, page := p, time := tm, playerCounts := pc } ++
          [Event.fetch (p + cnt),
            Event.write { bggid := b, name := nm, page := p + cnt, time := tm,
                          playerCounts := gapFill (forEachPlay (playsOfPages docs p cnt) pc).1 }
              (env.writeOk (p + cnt))],
        objGame := { bggid := b, name := nm, page := p + cnt, time := tm,
                     playerCounts := gapFill (forEachPlay (playsOfPages docs p cnt) pc).1 },
        exited := true } :=
  loop_fails_after env docs cnt fuel
    { bggid := b, name := nm, page := p, time := tm, playerCounts := pc } hcont hfail

theorem loop_finishes_after_mk (env : Env) (docs : Nat → XmlDoc) (cnt fuel b : Nat) (nm : String)
    (p st : Nat) (pc : List Cell) (t : Int)
    (hcont : ∀ q, p ≤ q → q < p + cnt → Continues env docs q)
    (hf : env.fetchData (p + cnt) = some (docs (p + cnt)))
    (ht : (docs (p + cnt)).total = some (JSNum.int t))
    (hq : ∀ play ∈ (docs (p + cnt)).plays, play.quantity ≠ none)
    (hlast : t - 100 * ((p + cnt : Nat) : Int) ≤ 0) :
    loopThroughPlays env (cnt + (fuel + 1))
        { bggid := b, name := nm, page := p, time := { start := st, finish := none },
          playerCounts := pc } =
      { events := contEvents env docs cnt
            { bggid := b, name := nm, page := p, time := { start := st, finish := none },
              playerCounts := pc } ++
          [Event.fetch (p + cnt),
            Event.write { bggid := b, name := nm, page := p + cnt,
                          time := { start := st, finish := some env.getDate },
                          playerCounts :=
                            gapFill (forEachPlay (playsOfPages docs p (cnt + 1)) pc).1 }
              (env.writeOk (p + cnt))],
        objGame := { bggid := b, name := nm, page := p + cnt,
                     time := { start := st, finish := some env.getDate },
                     playerCounts := gapFill (forEachPlay (playsOfPages docs p (cnt + 1)) pc).1 },
        exited := true } :=
  loop_finishes_after env docs cnt fuel
    { bggid := b, name := nm, page := p, time := { start := st, finish := none },
      playerCounts := pc } t hcont hf ht hq hlast

/-- Resume equivalence, with the page counts as parameters: the pages `1, ..., cnt1` are
folded, the fetch of page `1 + cnt1` fails, and the second run folds the pages
`1 + cnt1, ..., 1 + cnt1 + cnt2`, the last of which leaves no play to fetch. -/
theorem resume_core (env1 env2 env0 : Env) (docs : Nat → XmlDoc) (t : Int)
    (cnt1 cnt2 m f1 f2 f0 bggid : Nat) (title : String) (start1 start2 : Nat)
    (hm : m = cnt1 + (cnt2 + 1))
    (htotal : ∀ p, (docs p).total = some (JSNum.int t))
    (hqty : ∀ p, ∀ play ∈ (docs p).plays, play.quantity ≠ none)
    (hpos : ∀ q : Nat, q < 1 + cnt1 + cnt2 → 0 < t - 100 * (q : Int))
    (hlast : t - 100 * ((1 + cnt1 + cnt2 : Nat) : Int) ≤ 0)
    (hfetch1 : ∀ q, q < 1 + cnt1 → env1.fetchData q = some (docs q))
    (hfail : env1.fetchData (1 + cnt1) = none)
    (hfetch2 : ∀ q, env2.fetchData q = some (docs q))
    (hfetch0 : ∀ q, env0.fetchData q = some (docs q))
    (hw1 : ∀ p, env1.writeOk p = true) (hw2 : ∀ p, env2.writeOk p = true)
    (hw0 : ∀ p, env0.writeOk p = true) :
    storeAfter (storeAfter none (script env1 (cnt1 + (f1 + 1)) bggid title start1 none).events)
        (script env2 (cnt2 + (f2 + 1)) bggid title start2
          (storeAfter none (script env1 (cnt1 + (f1 + 1)) bggid title start1 none).events)).events
      = some { bggid := bggid, name := title, page := 1 + cnt1 + cnt2,
               time := { start := start1, finish := some env2.getDate },
               playerCounts :=
                 gapFill (forEachPlay (playsOfPages docs 1 m) []).1 } ∧
    storeAfter none (script env0 (cnt1 + cnt2 + (f0 + 1)) bggid title start1 none).events
      = some { bggid := bggid, name := title, page := 1 + cnt1 + cnt2,
               time := { start := start1, finish := some env0.getDate },
               playerCounts :=
                 gapFill (forEachPlay (playsOfPages docs 1 m) []).1 } ∧
    (script env2 (cnt2 + (f2 + 1)) bggid title start2
      (storeAfter none (script env1 (cnt1 + (f1 + 1)) bggid title start1 none).events)).exited
      = true ∧
    okFetched env1 (script env1 (cnt1 + (f1 + 1)) bggid title start1 none).events ++
      okFetched env2 (script env2 (cnt2 + (f2 + 1)) bggid title start2
        (storeAfter none (script env1 (cnt1 + (f1 + 1)) bggid title start1 none).events)).events
      = List.range' 1 m := by
  subst hm
  have hrun1 := loop_fails_after_mk env1 docs cnt1 f1 bggid title 1
    { start := start1, finish := none } []
    (fun q _ hq2 => ⟨hfetch1 q hq2, ⟨t, htotal q, hpos q (by omega)⟩, hqty q⟩) hfail
  have hrun2 := loop_finishes_after_mk env2 docs cnt2 f2 bggid title (1 + cnt1) start1
    (gapFill (forEachPlay (playsOfPages docs 1 cnt1) []).1) t
    (fun q _ hq2 => ⟨hfetch2 q, ⟨t, htotal q, hpos q hq2⟩, hqty q⟩)
    (hfetch2 _) (htotal _) (hqty _) hlast
  have hrun0 := loop_finishes_after_mk env0 docs (cnt1 + cnt2) f0 bggid title 1 start1 [] t
    (fun q _ hq2 => ⟨hfetch0 q, ⟨t, htotal q, hpos q (by omega)⟩, hqty q⟩)
    (hfetch0 _) (htotal _) (hqty _) (by rw [← Nat.add_assoc]; exact hlast)
  have hhist : gapFill (forEachPlay (playsOfPages docs (1 + cnt1) (cnt2 + 1))
        (gapFill (forEachPlay (playsOfPages docs 1 cnt1) []).1)).1
      = gapFill (forEachPlay (playsOfPages docs 1 (cnt1 + (cnt2 + 1))) []).1 := by
    rw [forEachPlay_gapFill, playsOfPages_append docs cnt1 (cnt2 + 1) 1,
      forEachPlay_append _ _ _ (forEachPlay_done _ _ (playsOfPages_quantity docs hqty _ _))]
  rw [hhist] at hrun2
  rw [hw1] at hrun1
  rw [hw2] at hrun2
  rw [hw0] at hrun0
  have hs1 : script env1 (cnt1 + (f1 + 1)) bggid title start1 none = _ := hrun1
  have hstore1 : storeAfter none (script env1 (cnt1 + (f1 + 1)) bggid title start1 none).events
      = some { bggid := bggid, name := title, page := 1 + cnt1,
               time := { start := start1, finish := none },
               playerCounts := gapFill (forEachPlay (playsOfPages docs 1 cnt1) []).1 } := by
    rw [hs1]
    exact storeAfter_write_last _ _ _ _
  have hs2 : script env2 (cnt2 + (f2 + 1)) bggid title start2
      (some { bggid := bggid, name := title, page := 1 + cnt1,
              time := { start := start1, finish := none },
              playerCounts := gapFill (forEachPlay (playsOfPages docs 1 cnt1) []).1 }) = _ := hrun2
  have hs0 : script env0 (cnt1 + cnt2 + (f0 + 1)) bggid title start1 none = _ := hrun0
  rw [hstore1, hs2, hs0, hs1]
  refine ⟨?_, ?_, rfl, ?_⟩
  · rw [storeAfter_write_last]
  · rw [storeAfter_write_last, Nat.add_assoc 1 cnt1 cnt2, Nat.add_assoc cnt1 cnt2 1]
  · rw [okFetched_append, okFetched_append,
      okFetched_contEvents env1 docs cnt1 _ (fun q _ hq2 => hfetch1 q hq2),
      okFetched_contEvents env2 docs cnt2 _ (fun q _ _ => hfetch2 q)]
    have h1 : okFetched env1 [Event.fetch (1 + cnt1),
        Event.write { bggid := bggid, name := title, page := 1 + cnt1,
                      time := { start := start1, finish := none },
                      playerCounts := gapFill (forEachPlay (playsOfPages docs 1 cnt1) []).1 }
          true] = [] := by
      simp [okFetched, fetchedPages, hfail]
    have h2 : okFetched env2 [Event.fetch (1 + cnt1 + cnt2),
        Event.write { bggid := bggid, name := title, page := 1 + cnt1 + cnt2,
                      time := { start := start1, finish := some env2.getDate },
                      playerCounts :=
                        gapFill (forEachPlay (playsOfPages docs 1 (cnt1 + (cnt2 + 1))) []).1 }
          true] = [1 + cnt1 + cnt2] := by
      simp [okFetched, fetchedPages, hfetch2]
    rw [h1, h2, List.append_nil]
    show List.range' 1 cnt1 ++ (List.range' (1 + cnt1) cnt2 ++ [1 + cnt1 + cnt2])
      = List.range' 1 (cnt1 + (cnt2 + 1))
    rw [← List.range'_1_concat, List.range'_append_1, Nat.add_comm cnt1]

/-- C10. Resume equivalence: the remote reports the same total `T` for every page, every play
carries a quantity, and `1 ≤ k ≤ n = ceil (T / 100)` (so `T ≥ 1`). A fresh run whose fetch of
page `k` fails, followed by a run on the store it leaves whose fetches all succeed, leaves in
the store the record that a single fresh run without failure leaves, up to the value of the
finish time: page `n`, the start time of the first run, a finish time, and the gap-filled fold
of the plays of the pages `1, ..., n`, each taken once. The pages fetched with success over
the two runs are `1, ..., n`, each once. All writes succeed. -/
theorem resume_equivalence (env1 env2 env0 : Env) (docs : Nat → XmlDoc)
    (T k fuel1 fuel2 fuel0 bggid : Nat) (title : String) (start1 start2 : Nat)
    (hk : 1 ≤ k) (hkn : k ≤ (T + 99) / 100)
    (htotal : ∀ p, (docs p).total = some (JSNum.int (T : Int)))
    (hqty : ∀ p, ∀ play ∈ (docs p).plays, play.quantity ≠ none)
    (hfetch1 : ∀ q, q < k → env1.fetchData q = some (docs q))
    (hfail : env1.fetchData k = none)
    (hfetch2 : ∀ q, env2.fetchData q = some (docs q))
    (hfetch0 : ∀ q, env0.fetchData q = some (docs q))
    (hw1 : ∀ p, env1.writeOk p = true) (hw2 : ∀ p, env2.writeOk p = true)
    (hw0 : ∀ p, env0.writeOk p = true)
    (hfuel1 : k ≤ fuel1) (hfuel2 : (T + 99) / 100 ≤ fuel2) (hfuel0 : (T + 99) / 100 ≤ fuel0) :
    storeAfter (storeAfter none (script env1 fuel1 bggid title start1 none).events)
        (script env2 fuel2 bggid title start2
          (storeAfter none (script env1 fuel1 bggid title start1 none).events)).events
      = some { bggid := bggid, name := title, page := (T + 99) / 100,
               time := { start := start1, finish := some env2.getDate },
               playerCounts :=
                 gapFill (forEachPlay (playsOfPages docs 1 ((T + 99) / 100)) []).1 } ∧
    storeAfter none (script env0 fuel0 bggid title start1 none).events
      = some { bggid := bggid, name := title, page := (T + 99) / 100,
               time := { start := start1, finish := some env0.getDate },
               playerCounts :=
                 gapFill (forEachPlay (playsOfPages docs 1 ((T + 99) / 100)) []).1 } ∧
    (script env2 fuel2 bggid title start2
      (storeAfter none (script env1 fuel1 bggid title start1 none).events)).exited = true ∧
    okFetched env1 (script env1 fuel1 bggid title start1 none).events ++
      okFetched env2 (script env2 fuel2 bggid title start2
        (storeAfter none (script env1 fuel1 bggid title start1 none).events)).events
      = List.range' 1 ((T + 99) / 100) := by
  obtain ⟨cnt1, rfl⟩ : ∃ cnt1, k = 1 + cnt1 := ⟨k - 1, by omega⟩
  obtain ⟨cnt2, hn⟩ : ∃ cnt2, (T + 99) / 100 = 1 + cnt1 + cnt2 :=
    ⟨(T + 99) / 100 - (1 + cnt1), by omega⟩
  obtain ⟨f1, rfl⟩ : ∃ f1, fuel1 = cnt1 + (f1 + 1) := ⟨fuel1 - (cnt1 + 1), by omega⟩
  obtain ⟨f2, rfl⟩ : ∃ f2, fuel2 = cnt2 + (f2 + 1) := ⟨fuel2 - (cnt2 + 1), by omega⟩
  obtain ⟨f0, rfl⟩ : ∃ f0, fuel0 = cnt1 + cnt2 + (f0 + 1) :=
    ⟨fuel0 - (cnt1 + cnt2 + 1), by omega⟩
  rw [hn]
  exact resume_core env1 env2 env0 docs (T : Int) cnt1 cnt2 (1 + cnt1 + cnt2) f1 f2 f0 bggid
    title start1 start2 (by omega) htotal hqty (fun q hq => by omega) (by omega)
    hfetch1 hfail hfetch2 hfetch0 hw1 hw2 hw0

/-- C10, witness: total 250, the first run fails on page 2, the second run fetches the pages
2 and 3. -/
theorem resume_equivalence_witness :
    storeAfter (storeAfter none (script envFail2 5 1 "game" 10 none).events)
        (script env250 5 1 "game" 30
          (storeAfter none (script envFail2 5 1 "game" 10 none).events)).events
      = some { bggid := 1, name := "game", page := 3,
               time := { start := 10, finish := some 77 },
               playerCounts := [some (JSNum.int 0), some (JSNum.int 0), some (JSNum.int 9),
                 some (JSNum.int 0), some (JSNum.int 3)] } ∧
    storeAfter none (script env250 5 1 "game" 10 none).events
      = some { bggid := 1, name := "game", page := 3,
               time := { start := 10, finish := some 77 },
               playerCounts := [some (JSNum.int 0), some (JSNum.int 0), some (JSNum.int 9),
                 some (JSNum.int 0), some (JSNum.int 3)] } ∧
    (script env250 5 1 "game" 30
      (storeAfter none (script envFail2 5 1 "game" 10 none).events)).exited = true ∧
    okFetched envFail2 (script envFail2 5 1 "game" 10 none).events ++
      okFetched env250 (script env250 5 1 "game" 30
        (storeAfter none (script envFail2 5 1 "game" 10 none).events)).events
      = [1, 2, 3] :=
  resume_equivalence envFail2 env250 env250 (fun _ => doc250) 250 2 5 5 5 1 "game" 10 30
    (by decide) (by decide) (fun _ => rfl)
    (fun _ => (by decide : ∀ play ∈ doc250.plays, play.quantity ≠ none))
    (fun q hq => by
      have hq2 : q ≠ 2 := by omega
      simp [envFail2, hq2])
    rfl (fun _ => rfl) (fun _ => rfl) (fun _ => rfl) (fun _ => rfl) (fun _ => rfl)
    (by decide) (by decide) (by decide)

end Floodgate
